import Mathlib

/-!
Verification of the FunnyFunnel lead-tracking application.

This file gives a shallow embedding, in Lean 4, of the parts of the
application that the verified properties talk about:

* `app/stepstone.py` — the StepStone job-retrieval service: search-URL
  construction (`build_search_url`), the paginated scrape loop
  (`_scrape_jobs`), result parsing (`_parse_search_results`,
  `_extract_job_from_card`), URL-based deduplication, the demo-data
  fallback (`_get_demo_jobs`) and the top-level `search_jobs`.
* `app/models.py` — the `Lead` record and the status vocabulary.
* `app/routes.py` — the lead lifecycle handlers: `create_lead`,
  `update_lead`, `activate_lead`, `research_lead`, `generate_letter`,
  `update_status`.

Modelling conventions:

* Python `str` is modelled by Lean `String` (a wrapper around
  `List Char`); `str.lower()` is modelled by ASCII lowering
  (`Char.toLower`), which agrees with Python on all ASCII text.
* Python `None` is modelled by `Option.none`; Python truthiness of
  strings (`if s:`) is `pyTruthy` (absent or empty is falsy).
* External effects are oracles passed as arguments: the HTTP fetch is a
  function `String → Except Unit PageDoc` (an exception from
  `session.get`/`raise_for_status` is `Except.error ()`, a successful
  response is the parsed document), `time.sleep(1)` is recorded in a
  trace, `random.choice`/`random.random()` draws are index/stream
  arguments, timestamps (`datetime.utcnow`) are `Nat` ticks passed in
  as `now`.
* An HTML document that reaches the parser is modelled by the results
  of the CSS-selector queries the code performs on it (`PageDoc`,
  `Card`); this is exactly the interface through which the code
  observes the document.
-/

/-- Python truthiness of an optional string: `None` and `""` are falsy. -/
def pyTruthy : Option String → Bool
  | none => false
  | some s => !s.isEmpty

/-- Python rendering of an optional string inside an f-string:
`None` renders as the text `"None"`. -/
def pyStr : Option String → String
  | none => "None"
  | some s => s

/-- Python `a or b` on optional strings: keep `a` when it is truthy. -/
def pyOrOpt (a b : Option String) : Option String :=
  if pyTruthy a then a else b

/-- Python `a or d` where `d` is a plain string default. -/
def pyOr (a : Option String) (d : String) : String :=
  match a with
  | none => d
  | some s => if s.isEmpty then d else s

/-- Decide whether `p` is a prefix of `l` (Python `str.startswith`,
character by character). -/
def prefixAt : List Char → List Char → Bool
  | [], _ => true
  | _ :: _, [] => false
  | a :: as, b :: bs => a == b && prefixAt as bs

/-- Decide whether `needle` occurs as a contiguous substring of `hay`
(the Python `in` operator on strings). -/
def subOf (needle : List Char) : List Char → Bool
  | [] => needle.isEmpty
  | c :: rest => prefixAt needle (c :: rest) || subOf needle rest

/-- Python `needle in hay` on strings. -/
def strContains (hay needle : String) : Bool :=
  subOf needle.data hay.data

/-- Python `hay.startswith(pre)`. -/
def strStarts (hay pre : String) : Bool :=
  prefixAt pre.data hay.data

/-- Python `sep.join(parts)`. -/
def pyJoin (sep : String) : List String → String
  | [] => ""
  | [s] => s
  | s :: rest => s ++ sep ++ pyJoin sep rest

/-- Python `s.lower()` (ASCII letters only; non-ASCII characters are
kept, which agrees with Python on the ASCII fragment). -/
def strLower (s : String) : String :=
  ⟨s.data.map Char.toLower⟩

/-- UTF-8 encoding of one character, as a list of byte values. -/
def utf8Bytes (c : Char) : List Nat :=
  let n := c.toNat
  if n < 128 then [n]
  else if n < 2048 then [192 + n / 64, 128 + n % 64]
  else if n < 65536 then [224 + n / 4096, 128 + n / 64 % 64, 128 + n % 64]
  else [240 + n / 262144, 128 + n / 4096 % 64, 128 + n / 64 % 64, 128 + n % 64]

/-- Uppercase hexadecimal digit for `n < 16`. -/
def hexDigitChar (n : Nat) : Char :=
  if n < 10 then Char.ofNat (48 + n) else Char.ofNat (55 + n)

/-- Percent-encoding `%XX` of one byte. -/
def percentEncodeByte (b : Nat) : List Char :=
  ['%', hexDigitChar (b / 16), hexDigitChar (b % 16)]

/-- Characters `urllib.parse.quote_plus` never encodes: ASCII
alphanumerics and `_`, `.`, `-`, `~`. -/
def quoteSafe (c : Char) : Bool :=
  c.isAlphanum || c == '_' || c == '.' || c == '-' || c == '~'

/-- Encoding of a single character under `urllib.parse.quote_plus`:
space becomes `+`, safe characters are kept, everything else is
percent-encoded byte by byte (UTF-8). -/
def quotePlusChar (c : Char) : List Char :=
  if c == ' ' then ['+']
  else if quoteSafe c then [c]
  else ((utf8Bytes c).map percentEncodeByte).flatten

/-- Python `urllib.parse.quote_plus`. -/
def quotePlus (s : String) : String :=
  ⟨(s.data.map quotePlusChar).flatten⟩

/-- Decimal digits of `n`, most significant first; the first argument
is fuel (`n` itself suffices, since `n / 10` shrinks at every step). -/
def natReprAux : Nat → Nat → List Char
  | 0, _ => []
  | fuel + 1, n =>
    if n = 0 then []
    else natReprAux fuel (n / 10) ++ [Char.ofNat (48 + n % 10)]

/-- Python `str(n)` for a natural number. -/
def natRepr (n : Nat) : String :=
  if n = 0 then "0" else ⟨natReprAux n n⟩

/-- Python `urllib.parse.urlencode` on an ordered parameter list (the
code builds params as a dict, which iterates in insertion order). -/
def urlencode (params : List (String × String)) : String :=
  pyJoin "&" (params.map fun p => quotePlus p.1 ++ "=" ++ quotePlus p.2)

namespace StepStoneService

/-- Literal constant `StepStoneService.BASE_URL`. -/
def BASE_URL : String := "https://www.stepstone.de"

/-- Literal constant `StepStoneService.SEARCH_URL`. -/
def SEARCH_URL : String := BASE_URL ++ "/jobs"

/-- Query-string parameters built by `build_search_url`: `radius` when
truthy, `page` when `> 1`, `age` when the date filter is truthy, in
that (dict insertion) order. -/
def searchParams (radius : Option Nat) (page : Nat) (dateFilter : Option Nat) :
    List (String × String) :=
  (match radius with
    | some r => if r = 0 then [] else [("radius", natRepr r)]
    | none => [])
  ++ (if page > 1 then [("page", natRepr page)] else [])
  ++ (match dateFilter with
    | some d => if d = 0 then [] else [("age", natRepr d)]
    | none => [])

/-- Path segments accumulated by `build_search_url`: `SEARCH_URL`,
then `quote_plus` of the keyword and `in-` plus the quoted location,
each only when truthy. -/
def urlParts (keywords location : Option String) : List String :=
  [SEARCH_URL]
    ++ (match keywords with
        | some k => if k.isEmpty then [] else [quotePlus k]
        | none => [])
    ++ (match location with
        | some l => if l.isEmpty then [] else ["in-" ++ quotePlus l]
        | none => [])

/-- `StepStoneService.build_search_url`: the path segments joined with
`/`, then the query string appended when any parameter is present. -/
def buildSearchUrl (keywords location : Option String) (radius : Option Nat)
    (page : Nat) (dateFilter : Option Nat) : String :=
  let url := pyJoin "/" (urlParts keywords location)
  let params := searchParams radius page dateFilter
  if params.isEmpty then url else url ++ "?" ++ urlencode params

/-- Literal constant `StepStoneService.AI_KEYWORDS`. -/
def AI_KEYWORDS : List String :=
  ["KI", "AI", "Künstliche Intelligenz", "Artificial Intelligence",
   "Machine Learning", "ML", "Deep Learning", "GenAI", "Generative AI",
   "LLM", "Large Language Model", "ChatGPT", "GPT", "Copilot",
   "NLP", "Natural Language Processing", "Computer Vision",
   "Neural Network", "Data Science", "Prompt Engineer"]

end StepStoneService

/-- One job record, the dict assembled by `_extract_job_from_card` and
`_get_demo_jobs`: `titel` and `quelle_url` are guaranteed present on
every record that reaches the caller, the other fields are optional. -/
structure Job where
  titel : String
  quelle : String
  quelle_url : String
  firmenname : Option String
  standort : Option String
  textvorschau : Option String
  keywords : List String
deriving DecidableEq

/-- One structural match handed to the normalizer, described by the
results of the queries `_extract_job_from_card` performs on it:
`tagName` is `card.name`, `textAll` is `card.get_text(strip=True)`,
`titleText`/`companyText`/`locationText`/`snippetText` are the stripped
texts of the respective `select_one` matches (absent when the selector
finds nothing), `linkMatch` is the descendant
`a[href*="/stellenangebote"]` match together with its `href` attribute
(outer `none` = no such element, inner `none` = element without
`href`), and `selfHref` is the card element's own `href` attribute. -/
structure Card where
  tagName : String
  textAll : String
  titleText : Option String
  companyText : Option String
  locationText : Option String
  snippetText : Option String
  linkMatch : Option (Option String)
  selfHref : Option String
deriving DecidableEq

/-- Python `s[:n]`. -/
def strTake (s : String) (n : Nat) : String :=
  ⟨s.data.take n⟩

namespace StepStoneService

/-- Title resolution of `_extract_job_from_card`: the text of the first
title-selector match, else the card's own text when the card itself is
an `<a>` element, else nothing. -/
def cardTitle (c : Card) : Option String :=
  match c.titleText with
  | some t => some t
  | none => if c.tagName == "a" then some c.textAll else none

/-- Link resolution of `_extract_job_from_card`: the descendant job
link if present, else the card itself when it is an `<a>`; the
resulting element's `href` must then be present and non-empty. -/
def cardHref (c : Card) : Option String :=
  let linkElem : Option (Option String) :=
    match c.linkMatch with
    | some v => some v
    | none => if c.tagName == "a" then some c.selfHref else none
  match linkElem with
  | some (some h) => if h.isEmpty then none else some h
  | _ => none

/-- `href` resolution in `_extract_job_from_card`: root-relative paths
are prefixed with `BASE_URL`, absolute URLs kept, bare relative paths
joined with a `/`. -/
def resolveHref (href : String) : String :=
  if strStarts href "/" then BASE_URL ++ href
  else if strStarts href "http" then href
  else BASE_URL ++ "/" ++ href

/-- `StepStoneService._extract_job_from_card`: discard (`none`) exactly
on a falsy title or an unresolvable link; company, location and snippet
are optional, the snippet is truncated to 500 characters, and keywords
are the `AI_KEYWORDS` whose lowercase form occurs in the lowercase
title, in vocabulary order. -/
def extractJobFromCard (c : Card) : Option Job :=
  if pyTruthy (cardTitle c) = false then none
  else
    match cardHref c with
    | none => none
    | some h =>
      let titel := (cardTitle c).getD ""
      some
        { titel := titel
          quelle := "StepStone"
          quelle_url := resolveHref h
          firmenname := c.companyText
          standort := c.locationText
          textvorschau := c.snippetText.map (fun s => strTake s 500)
          keywords :=
            AI_KEYWORDS.filter (fun kw => strContains (strLower titel) (strLower kw)) }

/-- One search-results page, described by the results of the four
cascaded selectors of `_parse_search_results`, in cascade order:
`article[data-testid="job-item"]`, `article.job-element`,
`[data-at="job-item"]`, `a[href*="/stellenangebote--"]`. -/
structure PageDoc where
  selArticleTestId : List Card
  selArticleJobElement : List Card
  selDataAtJobItem : List Card
  selAnchor : List Card
deriving DecidableEq

/-- Selector cascade of `_parse_search_results`: the first selector
that yields any match wins. -/
def selectCards (p : PageDoc) : List Card :=
  if !p.selArticleTestId.isEmpty then p.selArticleTestId
  else if !p.selArticleJobElement.isEmpty then p.selArticleJobElement
  else if !p.selDataAtJobItem.isEmpty then p.selDataAtJobItem
  else p.selAnchor

/-- Per-card loop of `_parse_search_results` with an explicit
normalizer `norm`; a raised exception (`Except.error`) or a `None`
result skips the card, everything else is appended. -/
def collectCards (norm : Card → Except Unit (Option Job)) : List Card → List Job
  | [] => []
  | c :: cs =>
    match norm c with
    | .error _ => collectCards norm cs
    | .ok none => collectCards norm cs
    | .ok (some j) => j :: collectCards norm cs

/-- `_parse_search_results` with the normalizer as a parameter (the
`try`/`except` around each card is the `Except` in `norm`). -/
def parseSearchResultsWith (norm : Card → Except Unit (Option Job)) (p : PageDoc) :
    List Job :=
  collectCards norm (selectCards p)

/-- `StepStoneService._parse_search_results`, with the actual
normalizer, which is total and hence never hits the `except` path. -/
def parseSearchResults (p : PageDoc) : List Job :=
  parseSearchResultsWith (fun c => .ok (extractJobFromCard c)) p

/-- Title filter of `_scrape_jobs`: kept records are those whose
lowercase title contains the lowercase filter; skipped entirely when
the filter is absent or empty (Python truthiness). -/
def applyTitleFilter (tf : Option String) (jobs : List Job) : List Job :=
  match tf with
  | some f => if f.isEmpty then jobs else
      jobs.filter (fun j => strContains (strLower j.titel) (strLower f))
  | none => jobs

/-- Trace of one run of the page loop of `_scrape_jobs`: the pages
fetched in order, the seconds slept between fetches in order, and the
accumulated (unfiltered-by-dedup) records or the propagated fetch
exception. -/
structure ScrapeTrace where
  fetched : List Nat
  delays : List Nat
  result : Except Unit (List Job)

/-- Page loop of `_scrape_jobs`, iterating over the page numbers of
`range(1, max_pages + 1)`: fetch-and-parse the page (`fp`); a raised
exception propagates (discarding what this run gathered); a page
parsing to zero records breaks the loop; otherwise the title filter is
applied, the records accumulated, and — only when `page < maxPages` —
`time.sleep(1)` runs before the next fetch. -/
def scrapeAux (fp : Nat → Except Unit (List Job)) (tf : Option String)
    (maxPages : Nat) : List Nat → ScrapeTrace
  | [] => ⟨[], [], .ok []⟩
  | page :: rest =>
    match fp page with
    | .error e => ⟨[page], [], .error e⟩
    | .ok jobs =>
      if jobs.isEmpty then ⟨[page], [], .ok []⟩
      else
        let fjobs := applyTitleFilter tf jobs
        if page < maxPages then
          let r := scrapeAux fp tf maxPages rest
          ⟨page :: r.fetched, 1 :: r.delays,
            match r.result with
            | .ok js => .ok (fjobs ++ js)
            | .error e => .error e⟩
        else ⟨[page], [], .ok fjobs⟩

/-- Deduplication loop at the end of `_scrape_jobs` (`seen_urls` set,
first occurrence of each `quelle_url` kept, order preserved). -/
def dedupAux (seen : List String) : List Job → List Job
  | [] => []
  | j :: rest =>
    if j.quelle_url ∈ seen then dedupAux seen rest
    else j :: dedupAux (j.quelle_url :: seen) rest

/-- Deduplication by `quelle_url` exactly as in `_scrape_jobs`. -/
def dedupJobs (jobs : List Job) : List Job :=
  dedupAux [] jobs

/-- `StepStoneService._scrape_jobs`: run the page loop from page 1 with
the composed fetch-and-parse oracle, then deduplicate; a fetch
exception propagates to the caller. -/
def scrapeJobs (fetch : String → Except Unit PageDoc)
    (keywords location : Option String) (radius : Option Nat) (maxPages : Nat)
    (dateFilter : Option Nat) (jobTitleFilter : Option String) :
    Except Unit (List Job) :=
  let fp : Nat → Except Unit (List Job) := fun page =>
    (fetch (buildSearchUrl keywords location radius page dateFilter)).map
      parseSearchResults
  match (scrapeAux fp jobTitleFilter maxPages (List.range' 1 maxPages)).result with
  | .ok js => .ok (dedupJobs js)
  | .error e => .error e

end StepStoneService

/-- Python `str.title()` (ASCII approximation: a letter starts
uppercased when the previous character is not a letter, and is
lowercased otherwise). -/
def pyTitleChars : Bool → List Char → List Char
  | _, [] => []
  | prevCased, c :: cs =>
    (if prevCased then c.toLower else c.toUpper) :: pyTitleChars c.isAlpha cs

/-- Python `s.title()`. -/
def pyTitle (s : String) : String :=
  ⟨pyTitleChars false s.data⟩

/-- Worker for Python `str.split()` with no argument: split on runs of
whitespace, producing no empty pieces. -/
def wordsAux (cur : List Char) : List Char → List (List Char)
  | [] => if cur.isEmpty then [] else [cur.reverse]
  | c :: cs =>
    if c.isWhitespace then
      (if cur.isEmpty then wordsAux [] cs else cur.reverse :: wordsAux [] cs)
    else wordsAux (c :: cur) cs

/-- Python `s.split()`. -/
def pyWords (s : String) : List String :=
  (wordsAux [] s.data).map fun w => ⟨w⟩

/-- Python `s.replace(',', ' ')`. -/
def replaceCommaSpace (s : String) : String :=
  ⟨s.data.map (fun c => if c == ',' then ' ' else c)⟩

namespace StepStoneService

/-- One entry of the `DEMO_JOBS` class constant. -/
structure DemoJob where
  titel : String
  firmenname : String
  standort : String
  textvorschau : String
  keywords : List String
deriving DecidableEq

/-- Literal constant `StepStoneService.DEMO_JOBS` (titles, companies,
locations, preview texts and keyword tags transcribed verbatim). -/
def DEMO_JOBS : List DemoJob :=
  [{ titel := "Senior AI Engineer - Large Language Models (m/w/d)"
     firmenname := "TechVision AI GmbH"
     standort := "Berlin"
     textvorschau := "Wir suchen einen erfahrenen AI Engineer für die Entwicklung und Optimierung von LLM-basierten Anwendungen.

Ihre Aufgaben:
• Entwicklung und Fine-Tuning von Large Language Models (GPT-4, Claude, Llama)
• Integration von LLMs in bestehende Unternehmensanwendungen
• Optimierung von Inference-Pipelines für Produktion
• Zusammenarbeit mit dem Produktteam zur Definition von AI-Features
• Mentoring von Junior-Entwicklern

Ihr Profil:
• Mindestens 5 Jahre Erfahrung in Machine Learning / AI
• Fundierte Kenntnisse in Python, PyTorch oder TensorFlow
• Erfahrung mit LLM-APIs (OpenAI, Anthropic, Hugging Face)
• Kenntnisse in MLOps und Cloud-Infrastruktur (AWS, GCP, Azure)
• Sehr gute Deutsch- und Englischkenntnisse

Wir bieten:
• Attraktives Gehalt: 85.000 - 120.000 EUR
• Remote-First Kultur mit optionalem Büro in Berlin-Mitte
• 30 Tage Urlaub + Bildungsbudget
• Modernste Hardware und Software-Tools
• Regelmäßige Team-Events und Konferenzbesuche"
     keywords := ["AI", "LLM", "GPT", "Machine Learning"] },
   { titel := "Machine Learning Engineer - Computer Vision"
     firmenname := "Automotive AI Solutions"
     standort := "München"
     textvorschau := "Entwicklung von Computer Vision Lösungen für autonomes Fahren bei einem führenden Automotive-Zulieferer.

Ihre Aufgaben:
• Entwicklung von Objekterkennungs- und Tracking-Algorithmen
• Training und Optimierung von Deep Learning Modellen für Echtzeit-Anwendungen
• Integration von Computer Vision in eingebettete Systeme
• Zusammenarbeit mit Hardware-Teams für optimale Performance
• Evaluation und Benchmarking von ML-Modellen

Ihr Profil:
• Master/PhD in Informatik, Mathematik oder verwandtem Bereich
• 3+ Jahre Erfahrung in Computer Vision und Deep Learning
• Expertise in PyTorch/TensorFlow und OpenCV
• Erfahrung mit YOLO, Faster R-CNN oder ähnlichen Architekturen
• Kenntnisse in C++ und eingebetteten Systemen von Vorteil

Wir bieten:
• Gehalt: 75.000 - 100.000 EUR
• Flexible Arbeitszeiten, 2 Tage Home Office
• Betriebliche Altersvorsorge
• Firmenwagen oder Mobilitätsbudget
• Weiterbildungsmöglichkeiten und Konferenzbesuche"
     keywords := ["Machine Learning", "Computer Vision", "Deep Learning", "AI"] },
   { titel := "Data Scientist - Generative AI (m/w/d)"
     firmenname := "FinTech Innovation Lab"
     standort := "Frankfurt am Main"
     textvorschau := "Implementierung von GenAI-Lösungen im Finanzsektor bei einem innovativen FinTech-Unternehmen.

Ihre Aufgaben:
• Entwicklung von GenAI-Anwendungen für Finanzanalyse und Risikobewertung
• Analyse großer Datenmengen und Entwicklung prädiktiver Modelle
• Integration von LLMs für automatisierte Berichtserstellung
• Zusammenarbeit mit Compliance-Teams für regulatorische Anforderungen
• Präsentation von Ergebnissen an Stakeholder und Management

Ihr Profil:
• Master in Data Science, Statistik oder Informatik
• 4+ Jahre Erfahrung als Data Scientist
• Kenntnisse in GenAI/LLM-Technologien
• Erfahrung im Finanzsektor von Vorteil
• SQL, Python, und Visualisierungstools (Tableau, PowerBI)

Wir bieten:
• Gehalt: 80.000 - 110.000 EUR + Bonus
• Zentrale Lage in Frankfurt
• Flexible Arbeitszeiten
• Betriebliche Krankenversicherung
• Startup-Kultur mit flachen Hierarchien"
     keywords := ["GenAI", "Data Science", "AI", "Machine Learning"] },
   { titel := "KI-Projektmanager - Digital Transformation"
     firmenname := "Consulting Partners AG"
     standort := "Hamburg"
     textvorschau := "Leitung von KI-Transformationsprojekten bei Großkunden als Senior Consultant.

Ihre Aufgaben:
• Leitung von KI-Einführungsprojekten bei DAX-Unternehmen
• Entwicklung von KI-Strategien und Roadmaps
• Beratung zu Copilot, ChatGPT Enterprise und anderen AI-Tools
• Stakeholder-Management und Change Management
• Aufbau und Führung von Projektteams

Ihr Profil:
• 5+ Jahre Erfahrung in IT-Beratung oder Projektmanagement
• Verständnis von KI/ML-Technologien und deren Anwendung
• Erfahrung mit Microsoft 365 Copilot, ChatGPT Enterprise
• Zertifizierungen (PMP, PRINCE2) von Vorteil
• Exzellente Kommunikations- und Präsentationsfähigkeiten

Wir bieten:
• Gehalt: 90.000 - 130.000 EUR
• Firmenwagen oder BahnCard 100
• Home Office und flexible Arbeitszeiten
• Umfangreiche Weiterbildungsprogramme
• Internationales Arbeitsumfeld"
     keywords := ["KI", "Copilot", "ChatGPT", "AI"] },
   { titel := "Prompt Engineer - Enterprise AI"
     firmenname := "Digital Solutions GmbH"
     standort := "Köln"
     textvorschau := "Optimierung von LLM-Prompts für Unternehmensanwendungen in einer spezialisierten AI-Agentur.

Ihre Aufgaben:
• Entwicklung und Optimierung von Prompts für verschiedene LLMs
• Erstellung von Prompt-Bibliotheken und Best Practices
• A/B-Testing und Performance-Analyse von Prompts
• Schulung von Kunden und internen Teams
• Dokumentation und Qualitätssicherung

Ihr Profil:
• 2+ Jahre Erfahrung mit LLMs und Prompt Engineering
• Tiefes Verständnis von GPT-4, Claude, Gemini und anderen Modellen
• Kenntnisse in Python für Automatisierung
• Kreativität und analytisches Denken
• Sehr gute Deutsch- und Englischkenntnisse

Wir bieten:
• Gehalt: 60.000 - 85.000 EUR
• 100% Remote möglich
• Flexible Arbeitszeiten
• Neueste AI-Tools und Technologien
• Startup-Atmosphäre mit schnellem Wachstum"
     keywords := ["Prompt Engineer", "LLM", "AI", "GenAI"] },
   { titel := "Head of AI & Innovation"
     firmenname := "Enterprise Tech AG"
     standort := "Düsseldorf"
     textvorschau := "Führung des AI-Teams und strategische Ausrichtung der KI-Initiativen als Teil der Geschäftsleitung.

Ihre Aufgaben:
• Strategische Führung des AI-Teams (15+ Mitarbeiter)
• Entwicklung der AI-Roadmap und Vision
• Budget- und Ressourcenplanung
• Zusammenarbeit mit C-Level und Stakeholdern
• Aufbau von Partnerschaften mit Technologieanbietern

Ihr Profil:
• 10+ Jahre Erfahrung in AI/ML
• 5+ Jahre Führungserfahrung
• Nachweisliche Erfolge bei AI-Transformationen
• MBA oder vergleichbare Qualifikation von Vorteil
• Starke strategische und kommunikative Fähigkeiten

Wir bieten:
• Gehalt: 150.000 - 200.000 EUR + Bonus
• Geschäftswagen
• Aktienoptionen
• Executive Coaching
• Internationale Reisetätigkeit"
     keywords := ["AI", "KI", "Machine Learning", "Leadership"] },
   { titel := "NLP Engineer - Conversational AI"
     firmenname := "ChatBot Innovations"
     standort := "Berlin"
     textvorschau := "Entwicklung von Chatbots und virtuellen Assistenten für Enterprise-Kunden.

Ihre Aufgaben:
• Entwicklung von NLU/NLG-Komponenten
• Training und Optimierung von Conversational AI Modellen
• Integration mit Backend-Systemen (CRM, ERP)
• Performance-Monitoring und kontinuierliche Verbesserung
• Technische Dokumentation

Ihr Profil:
• 3+ Jahre Erfahrung in NLP/Conversational AI
• Kenntnisse in Rasa, Dialogflow oder ähnlichen Frameworks
• Python, FastAPI, Docker
• Erfahrung mit LLM-Integration
• Teamfähigkeit und selbstständige Arbeitsweise

Wir bieten:
• Gehalt: 65.000 - 90.000 EUR
• Zentrale Lage in Berlin-Kreuzberg
• Flexible Arbeitszeiten, Home Office möglich
• Regelmäßige Hackathons
• Weiterbildungsbudget"
     keywords := ["NLP", "AI", "Conversational AI", "LLM"] },
   { titel := "AI Solutions Architect (m/w/d)"
     firmenname := "Cloud Systems GmbH"
     standort := "Stuttgart"
     textvorschau := "Design und Implementierung skalierbarer AI-Lösungen in der Cloud.

Ihre Aufgaben:
• Architektur-Design für AI/ML-Systeme
• Beratung von Kunden bei der Cloud-Migration
• Implementierung von MLOps-Pipelines
• Performance-Optimierung und Kostenkontrolle
• Technische Führung von Projektteams

Ihr Profil:
• 7+ Jahre Erfahrung in Software-Architektur
• Expertise in AWS, Azure oder GCP
• Kenntnisse in Kubernetes, Terraform, CI/CD
• Erfahrung mit ML-Frameworks und MLOps
• AWS/Azure/GCP Zertifizierungen von Vorteil

Wir bieten:
• Gehalt: 95.000 - 130.000 EUR
• Remote-First mit optionalem Büro
• Zertifizierungsbudget
• Moderne Arbeitsausstattung
• Team-Events und Workations"
     keywords := ["AI", "Cloud", "Machine Learning", "Architecture"] },
   { titel := "Deep Learning Researcher"
     firmenname := "Research Institute AI"
     standort := "München"
     textvorschau := "Forschung im Bereich Deep Learning und neuronale Netze an einem führenden Forschungsinstitut.

Ihre Aufgaben:
• Grundlagenforschung in Deep Learning
• Entwicklung neuer Algorithmen und Architekturen
• Publikation in Top-Konferenzen (NeurIPS, ICML, ICLR)
• Betreuung von PhD-Studenten
• Zusammenarbeit mit Industriepartnern

Ihr Profil:
• PhD in Machine Learning, Informatik oder Mathematik
• Publikationstrack Record in Top-Venues
• Expertise in PyTorch/JAX
• Erfahrung mit GPU-Cluster und verteiltem Training
• Leidenschaft für Forschung

Wir bieten:
• Gehalt: 70.000 - 100.000 EUR
• Akademisches Umfeld mit Industrieanbindung
• Zugang zu modernster GPU-Infrastruktur
• Konferenzreisen weltweit
• Flexible Arbeitszeiten"
     keywords := ["Deep Learning", "AI", "Neural Network", "Research"] },
   { titel := "MLOps Engineer - AI Platform"
     firmenname := "DataDriven Tech"
     standort := "Leipzig"
     textvorschau := "Aufbau und Betrieb der ML-Infrastruktur für skalierbare AI-Produkte.

Ihre Aufgaben:
• Aufbau und Wartung der ML-Plattform
• Implementierung von CI/CD für ML-Modelle
• Monitoring und Alerting für ML-Systeme
• Optimierung von Training- und Inference-Pipelines
• Zusammenarbeit mit Data Scientists

Ihr Profil:
• 4+ Jahre Erfahrung in DevOps/MLOps
• Kubernetes, Docker, Helm
• MLflow, Kubeflow oder ähnliche Tools
• Python, Bash, Terraform
• Cloud-Erfahrung (AWS/GCP/Azure)

Wir bieten:
• Gehalt: 70.000 - 95.000 EUR
• Remote-First Kultur
• 30 Tage Urlaub
• Weiterbildungsbudget
• Stock Options"
     keywords := ["MLOps", "Machine Learning", "AI", "DevOps"] }]

/-- Base demo record built at the top of both loops of
`_get_demo_jobs`: a copy of the demo entry with `quelle` and the
synthesized `quelle_url` (using the 1-based index and the original
`standort`) added. -/
def demoBase (i : Nat) (d : DemoJob) : Job :=
  { titel := d.titel
    quelle := "StepStone"
    quelle_url :=
      "https://www.stepstone.de/stellenangebote--Demo-" ++ natRepr (i + 1)
        ++ "-" ++ d.standort
    firmenname := some d.firmenname
    standort := some d.standort
    textvorschau := some d.textvorschau
    keywords := d.keywords }

/-- Keyword filter of `_get_demo_jobs`: lowercase the search keywords,
replace commas by spaces, split on whitespace, and keep the entry when
any piece occurs in the lowercase title or preview. -/
def demoKwMatch (keywords titel textvorschau : String) : Bool :=
  (pyWords (replaceCommaSpace (strLower keywords))).any
    (fun kw => strContains (strLower titel) kw || strContains (strLower textvorschau) kw)

/-- First-loop body of `_get_demo_jobs` for one enumerated entry.
`rand r` models the draw `random.random() > 0.3` (consumed only on a
location mismatch): `true` skips the entry, `false` keeps it with its
`standort` replaced by `location.title()`. Returns the kept record (if
any) and the updated draw counter. -/
def demoStep (keywords location jobTitleFilter : Option String) (rand : Nat → Bool)
    (i : Nat) (d : DemoJob) (r : Nat) : Option Job × Nat :=
  let job := demoBase i d
  let afterLoc : Option Job × Nat :=
    match location with
    | some loc =>
      if loc.isEmpty then (some job, r)
      else if strContains (strLower d.standort) (strLower loc) then (some job, r)
      else if rand r then (none, r + 1)
      else (some { job with standort := some (pyTitle loc) }, r + 1)
    | none => (some job, r)
  match afterLoc with
  | (none, r') => (none, r')
  | (some job', r') =>
    let kwKeep : Bool :=
      match keywords with
      | some kw => if kw.isEmpty then true else demoKwMatch kw d.titel d.textvorschau
      | none => true
    if !kwKeep then (none, r')
    else
      let tfKeep : Bool :=
        match jobTitleFilter with
        | some f => if f.isEmpty then true else strContains (strLower d.titel) (strLower f)
        | none => true
      if !tfKeep then (none, r') else (some job', r')

/-- First loop of `_get_demo_jobs` over the enumerated demo entries,
threading the draw counter. -/
def demoLoop (keywords location jobTitleFilter : Option String) (rand : Nat → Bool) :
    List (Nat × DemoJob) → Nat → List Job
  | [], _ => []
  | (i, d) :: rest, r =>
    match demoStep keywords location jobTitleFilter rand i d r with
    | (some j, r') => j :: demoLoop keywords location jobTitleFilter rand rest r'
    | (none, r') => demoLoop keywords location jobTitleFilter rand rest r'

/-- Fallback loop of `_get_demo_jobs`: when every entry was filtered
out, all demo entries are rebuilt unfiltered (with `standort` replaced
by `location.title()` when a location was given). -/
def demoFallback (location : Option String) : List Job :=
  DEMO_JOBS.enum.map (fun p =>
    let job := demoBase p.1 p.2
    match location with
    | some loc => if loc.isEmpty then job else { job with standort := some (pyTitle loc) }
    | none => job)

/-- `StepStoneService._get_demo_jobs`. -/
def getDemoJobs (keywords location jobTitleFilter : Option String)
    (rand : Nat → Bool) : List Job :=
  let jobs := demoLoop keywords location jobTitleFilter rand DEMO_JOBS.enum 0
  if jobs.isEmpty then demoFallback location else jobs

/-- `StepStoneService.search_jobs`: try the real scrape first and
return its records when it succeeds with at least one; on a raised
exception (caught) or an empty scrape, fall back to the demo data. -/
def searchJobs (fetch : String → Except Unit PageDoc) (rand : Nat → Bool)
    (keywords location : Option String) (radius : Option Nat) (maxPages : Nat)
    (dateFilter : Option Nat) (jobTitleFilter : Option String) : List Job :=
  match scrapeJobs fetch keywords location radius maxPages dateFilter jobTitleFilter with
  | .ok js => if js.isEmpty then getDemoJobs keywords location jobTitleFilter rand else js
  | .error _ => getDemoJobs keywords location jobTitleFilter rand

end StepStoneService

/-- Worker for Python `s.split(',')`: split on every comma; the empty
string yields one empty piece. -/
def splitCommaChars : List Char → List (List Char)
  | [] => [[]]
  | c :: cs =>
    if c = ',' then [] :: splitCommaChars cs
    else
      match splitCommaChars cs with
      | [] => [[c]]
      | p :: ps => (c :: p) :: ps

/-- Python `s.split(',')`. -/
def pySplitComma (s : String) : List String :=
  (splitCommaChars s.data).map fun p => ⟨p⟩

namespace LeadStatus

/-- `LeadStatus.NEU.value`. -/
def NEU : String := "neu"

/-- `LeadStatus.AKTIVIERT.value`. -/
def AKTIVIERT : String := "aktiviert"

/-- `LeadStatus.RECHERCHIERT.value`. -/
def RECHERCHIERT : String := "recherchiert"

/-- `LeadStatus.ANSCHREIBEN_ERSTELLT.value`. -/
def ANSCHREIBEN_ERSTELLT : String := "anschreiben_erstellt"

/-- `LeadStatus.ANGESCHRIEBEN.value`. -/
def ANGESCHRIEBEN : String := "angeschrieben"

/-- `LeadStatus.ANTWORT_ERHALTEN.value`. -/
def ANTWORT_ERHALTEN : String := "antwort_erhalten"

end LeadStatus

/-- `Lead.get_status_options()`: the six status strings, in enum
declaration order. -/
def statusOptions : List String :=
  [LeadStatus.NEU, LeadStatus.AKTIVIERT, LeadStatus.RECHERCHIERT,
   LeadStatus.ANSCHREIBEN_ERSTELLT, LeadStatus.ANGESCHRIEBEN,
   LeadStatus.ANTWORT_ERHALTEN]

/-- The persistent `Lead` row of `app/models.py` (the integer primary
key is managed by the store and irrelevant to the verified properties;
`datetime` columns are modelled as abstract `Nat` ticks). `keywords` is
the comma-separated internal representation. -/
structure Lead where
  titel : Option String
  quelle : Option String
  quelle_url : Option String
  keywords : Option String
  textvorschau : Option String
  volltext : Option String
  firmenname : Option String
  firmen_website : Option String
  firmen_adresse : Option String
  firmen_email : Option String
  ansprechpartner_name : Option String
  ansprechpartner_rolle : Option String
  ansprechpartner_linkedin : Option String
  ansprechpartner_quelle : Option String
  anschreiben : Option String
  status : String
  erstellt_am : Nat
  aktualisiert_am : Nat
deriving DecidableEq

/-- The JSON value found under the `keywords` key of a request body:
a list, a plain string, or nothing usable (key absent or null — both
make `data.get('keywords')` a non-list falsy value). -/
inductive KeywordsJson where
  | asList : List String → KeywordsJson
  | asStr : String → KeywordsJson
  | absent : KeywordsJson
deriving DecidableEq

/-- Request body of `POST /leads` (`create_lead`): the fields the
handler reads, each `none` when the key is absent (or null). -/
structure CreateData where
  titel : Option String := none
  quelle : Option String := none
  quelle_url : Option String := none
  keywords : KeywordsJson := .absent
  textvorschau : Option String := none
  firmenname : Option String := none

/-- `create_lead`: build a fresh Lead with status `NEU`, joining a
keyword list into the comma-separated column, defaulting `quelle` to
`"StepStone"`, both timestamps set to the creation instant. -/
def createLead (now : Nat) (d : CreateData) : Lead :=
  { titel := d.titel
    quelle := some (d.quelle.getD "StepStone")
    quelle_url := d.quelle_url
    keywords :=
      match d.keywords with
      | .asList l => some (pyJoin "," l)
      | .asStr s => some s
      | .absent => none
    textvorschau := d.textvorschau
    volltext := none
    firmenname := d.firmenname
    firmen_website := none
    firmen_adresse := none
    firmen_email := none
    ansprechpartner_name := none
    ansprechpartner_rolle := none
    ansprechpartner_linkedin := none
    ansprechpartner_quelle := none
    anschreiben := none
    status := LeadStatus.NEU
    erstellt_am := now
    aktualisiert_am := now }

/-- Wire shape produced by `Lead.to_dict()`: every column copied,
except that `keywords` is exposed as a list (timestamps stay abstract
ticks; the code renders them as ISO strings). -/
structure LeadDict where
  titel : Option String
  quelle : Option String
  quelle_url : Option String
  keywords : List String
  textvorschau : Option String
  volltext : Option String
  firmenname : Option String
  firmen_website : Option String
  firmen_adresse : Option String
  firmen_email : Option String
  ansprechpartner_name : Option String
  ansprechpartner_rolle : Option String
  ansprechpartner_linkedin : Option String
  ansprechpartner_quelle : Option String
  anschreiben : Option String
  status : String
  erstellt_am : Nat
  aktualisiert_am : Nat
deriving DecidableEq

/-- `Lead.to_dict()`: `keywords` becomes
`self.keywords.split(',') if self.keywords else []`, everything else is
copied. -/
def leadToDict (l : Lead) : LeadDict :=
  { titel := l.titel
    quelle := l.quelle
    quelle_url := l.quelle_url
    keywords :=
      match l.keywords with
      | some s => if s.isEmpty then [] else pySplitComma s
      | none => []
    textvorschau := l.textvorschau
    volltext := l.volltext
    firmenname := l.firmenname
    firmen_website := l.firmen_website
    firmen_adresse := l.firmen_adresse
    firmen_email := l.firmen_email
    ansprechpartner_name := l.ansprechpartner_name
    ansprechpartner_rolle := l.ansprechpartner_rolle
    ansprechpartner_linkedin := l.ansprechpartner_linkedin
    ansprechpartner_quelle := l.ansprechpartner_quelle
    anschreiben := l.anschreiben
    status := l.status
    erstellt_am := l.erstellt_am
    aktualisiert_am := l.aktualisiert_am }

/-- Request body of `PUT /leads/<id>` (`update_lead`): outer `none`
means the key is absent (field untouched); for `keywords`, a present
key carries a list, a string, or null (`KeywordsJson.absent`, which
Python assigns as `None`). -/
structure UpdateData where
  titel : Option String := none
  quelle_url : Option String := none
  keywords : Option KeywordsJson := none
  textvorschau : Option String := none
  volltext : Option String := none
  firmenname : Option String := none
  firmen_website : Option String := none
  firmen_adresse : Option String := none
  firmen_email : Option String := none
  ansprechpartner_name : Option String := none
  ansprechpartner_rolle : Option String := none
  ansprechpartner_linkedin : Option String := none
  ansprechpartner_quelle : Option String := none
  anschreiben : Option String := none
  status : Option String := none

/-- `update_lead`: copy every provided field onto the Lead — including
a provided `status` string, which is written with no validation — then
commit (refreshing the update timestamp). Never errors. -/
def updateLead (now : Nat) (d : UpdateData) (lead : Lead) : Lead × Option String :=
  ({ lead with
      titel := if d.titel.isSome then d.titel else lead.titel
      quelle_url := if d.quelle_url.isSome then d.quelle_url else lead.quelle_url
      keywords :=
        match d.keywords with
        | none => lead.keywords
        | some (.asList l) => some (pyJoin "," l)
        | some (.asStr s) => some s
        | some .absent => none
      textvorschau := if d.textvorschau.isSome then d.textvorschau else lead.textvorschau
      volltext := if d.volltext.isSome then d.volltext else lead.volltext
      firmenname := if d.firmenname.isSome then d.firmenname else lead.firmenname
      firmen_website := if d.firmen_website.isSome then d.firmen_website else lead.firmen_website
      firmen_adresse := if d.firmen_adresse.isSome then d.firmen_adresse else lead.firmen_adresse
      firmen_email := if d.firmen_email.isSome then d.firmen_email else lead.firmen_email
      ansprechpartner_name := if d.ansprechpartner_name.isSome then d.ansprechpartner_name else lead.ansprechpartner_name
      ansprechpartner_rolle := if d.ansprechpartner_rolle.isSome then d.ansprechpartner_rolle else lead.ansprechpartner_rolle
      ansprechpartner_linkedin := if d.ansprechpartner_linkedin.isSome then d.ansprechpartner_linkedin else lead.ansprechpartner_linkedin
      ansprechpartner_quelle := if d.ansprechpartner_quelle.isSome then d.ansprechpartner_quelle else lead.ansprechpartner_quelle
      anschreiben := if d.anschreiben.isSome then d.anschreiben else lead.anschreiben
      status :=
        match d.status with
        | some s => s
        | none => lead.status
      aktualisiert_am := now }, none)

/-- `activate_lead` (`POST /leads/<id>/activate`): only a Lead in `NEU`
moves to `AKTIVIERT`; otherwise the handler answers with an error and
commits nothing, so the stored row — returned unchanged here — keeps
its status and timestamps. -/
def activateLead (now : Nat) (lead : Lead) : Lead × Option String :=
  if lead.status != LeadStatus.NEU then (lead, some "Lead ist bereits aktiviert")
  else ({ lead with status := LeadStatus.AKTIVIERT, aktualisiert_am := now }, none)

/-- Contact-name pool drawn from by `research_lead`. -/
def NAMES_POOL : List String :=
  ["Dr. Thomas Müller", "Sarah Schmidt", "Michael Weber", "Anna Fischer",
   "Christian Bauer"]

/-- Contact-role pool drawn from by `research_lead`. -/
def ROLLEN_POOL : List String :=
  ["CEO", "CTO", "CIO", "Head of Learning & Development",
   "Chief Digital Officer"]

/-- Python `s.replace(' ', '-')`. -/
def replaceSpaceDash (s : String) : String :=
  ⟨s.data.map (fun c => if c == ' ' then '-' else c)⟩

/-- Python `s.replace('.', '')`. -/
def removeDots (s : String) : String :=
  ⟨s.data.filter (fun c => c != '.')⟩

/-- Fixed body text appended to the simulated full job text in
`research_lead`. -/
def RESEARCH_VOLLTEXT_BODY : String :=
  "

Wir suchen eine/n engagierte/n Mitarbeiter/in für unser wachsendes Team.

Ihre Aufgaben:
- Entwicklung und Implementierung von KI-Lösungen
- Zusammenarbeit mit cross-funktionalen Teams
- Evaluation neuer Technologien im Bereich GenAI und Copilot

Ihr Profil:
- Erfahrung mit Machine Learning und KI-Technologien
- Kenntnisse in Python, TensorFlow oder PyTorch
- Begeisterung für innovative Technologien

Wir bieten:
- Flexible Arbeitszeiten
- Moderne Arbeitsumgebung
- Weiterbildungsmöglichkeiten
"

/-- `research_lead` (`POST /leads/<id>/research`): requires status
`AKTIVIERT` (else error, nothing committed); then simulates research:
`volltext` always rewritten from the template; `firmen_website`,
`firmen_adresse`, `firmen_email` filled only when currently falsy
(website/email synthesized from the company name when present, else
`None`); all four contact-person fields unconditionally overwritten
with pool draws (`nameIdx`/`rolleIdx` model `random.choice`); status
set to `RECHERCHIERT`. -/
def researchLead (now nameIdx rolleIdx : Nat) (lead : Lead) : Lead × Option String :=
  if lead.status != LeadStatus.AKTIVIERT then
    (lead, some "Lead muss zuerst aktiviert werden")
  else
    let name := NAMES_POOL.getD (nameIdx % NAMES_POOL.length) ""
    let rolle := ROLLEN_POOL.getD (rolleIdx % ROLLEN_POOL.length) ""
    ({ lead with
        volltext :=
          some ("\n" ++ pyStr (pyOrOpt lead.textvorschau lead.titel)
            ++ RESEARCH_VOLLTEXT_BODY)
        firmen_website :=
          if pyTruthy lead.firmen_website then lead.firmen_website
          else if pyTruthy lead.firmenname then
            some ("https://www."
              ++ replaceSpaceDash (strLower (lead.firmenname.getD "")) ++ ".de")
          else none
        firmen_adresse :=
          if pyTruthy lead.firmen_adresse then lead.firmen_adresse
          else some "Musterstraße 123, 10115 Berlin"
        firmen_email :=
          if pyTruthy lead.firmen_email then lead.firmen_email
          else if pyTruthy lead.firmenname then
            some ("info@"
              ++ replaceSpaceDash (strLower (lead.firmenname.getD "")) ++ ".de")
          else none
        ansprechpartner_name := some name
        ansprechpartner_rolle := some rolle
        ansprechpartner_linkedin :=
          some ("https://linkedin.com/in/"
            ++ removeDots (replaceSpaceDash (strLower name)))
        ansprechpartner_quelle := some "LinkedIn"
        status := LeadStatus.RECHERCHIERT
        aktualisiert_am := now }, none)

/-- Statuses on which `generate_letter` is allowed to run. -/
def LETTER_ALLOWED : List String :=
  [LeadStatus.RECHERCHIERT, LeadStatus.ANSCHREIBEN_ERSTELLT,
   LeadStatus.ANGESCHRIEBEN, LeadStatus.ANTWORT_ERHALTEN]

/-- The f-string letter template of `generate_letter`, with the
salutation falling back to `Damen und Herren` and the company falling
back to `Ihr Unternehmen` when the respective Lead field is falsy. -/
def letterText (lead : Lead) (absenderName absenderFirma : String) : String :=
  "Sehr geehrte/r " ++ pyOr lead.ansprechpartner_name "Damen und Herren"
    ++ ",

mit großem Interesse habe ich Ihre Stellenanzeige \"" ++ pyStr lead.titel
    ++ "\" auf " ++ pyStr lead.quelle ++ " gelesen.

Als Experte im Bereich KI und digitale Transformation bin ich überzeugt, dass ich "
    ++ pyOr lead.firmenname "Ihr Unternehmen"
    ++ " bei der erfolgreichen Implementierung von KI-Lösungen unterstützen kann.

Besonders angesprochen hat mich:
- Der Fokus auf innovative KI-Technologien
- Die Möglichkeit, an zukunftsweisenden Projekten mitzuarbeiten
- Die Vision Ihres Unternehmens im Bereich digitaler Innovation

Ich würde mich sehr freuen, in einem persönlichen Gespräch zu erläutern, wie ich "
    ++ pyOr lead.firmenname "Ihr Unternehmen"
    ++ " mit meiner Expertise unterstützen kann.

Mit freundlichen Grüßen
" ++ absenderName ++ "
" ++ absenderFirma ++ "
"

/-- `generate_letter` (`POST /leads/<id>/generate-letter`): requires a
status in `LETTER_ALLOWED` (else error, nothing committed); sender name
and company default to bracketed placeholders when absent from the
request body; writes the templated letter and sets status
`ANSCHREIBEN_ERSTELLT`. -/
def generateLetter (now : Nat) (absenderName absenderFirma : Option String)
    (lead : Lead) : Lead × Option String :=
  if !(LETTER_ALLOWED.contains lead.status) then
    (lead, some "Lead muss zuerst recherchiert werden")
  else
    ({ lead with
        anschreiben :=
          some (letterText lead (absenderName.getD "[Ihr Name]")
            (absenderFirma.getD "[Ihre Firma]"))
        status := LeadStatus.ANSCHREIBEN_ERSTELLT
        aktualisiert_am := now }, none)

/-- `update_status` (`PUT /leads/<id>/status`): the requested value
must be one of `Lead.get_status_options()`, else the handler answers
with `Ungültiger Status` and commits nothing. -/
def updateStatus (now : Nat) (newStatus : Option String) (lead : Lead) :
    Lead × Option String :=
  match newStatus with
  | some s =>
    if statusOptions.contains s then
      ({ lead with status := s, aktualisiert_am := now }, none)
    else (lead, some "Ungültiger Status")
  | none => (lead, some "Ungültiger Status")

/-- Concrete Lead used by the witnesses below. -/
def sampleLead : Lead :=
  { titel := some "AI Engineer - GenAI (m/w/d)"
    quelle := some "StepStone"
    quelle_url := some "https://www.stepstone.de/stellenangebote--Sample"
    keywords := some "AI,LLM"
    textvorschau := some "Wir suchen einen AI Engineer."
    volltext := none
    firmenname := some "TechVision GmbH"
    firmen_website := some "https://www.techvision.de"
    firmen_adresse := none
    firmen_email := none
    ansprechpartner_name := some "Max Beispiel"
    ansprechpartner_rolle := none
    ansprechpartner_linkedin := none
    ansprechpartner_quelle := none
    anschreiben := none
    status := LeadStatus.NEU
    erstellt_am := 0
    aktualisiert_am := 0 }

/-- Concrete records for the C5 witness: two share a URL, one differs. -/
def jobA : Job :=
  { titel := "A", quelle := "StepStone", quelle_url := "https://x/y"
    firmenname := none, standort := none, textvorschau := none, keywords := [] }

/-- Duplicate-URL record for the C5 witness. -/
def jobB : Job := { jobA with titel := "B" }

/-- Distinct-URL record for the C5 witness. -/
def jobC : Job := { jobA with titel := "C", quelle_url := "https://x/z" }

/-- Concrete card without any resolvable title, for the C6 witness. -/
def cardNoTitle : Card :=
  { tagName := "article", textAll := "", titleText := none
    companyText := some "Firma", locationText := none, snippetText := none
    linkMatch := some (some "/stellenangebote--X"), selfHref := none }

/-- Concrete well-formed card, for the C6 witness. -/
def cardGood : Card :=
  { tagName := "article", textAll := "", titleText := some "AI Engineer"
    companyText := none, locationText := none, snippetText := none
    linkMatch := some (some "/stellenangebote--Good"), selfHref := none }

/-- Card marked so the C6 witness normalizer raises on it. -/
def cardBad : Card := { cardNoTitle with tagName := "bad" }

/-- Normalizer for the C6 witness: raises on `cardBad`, otherwise runs
the real normalizer. -/
def normWitness : Card → Except Unit (Option Job) :=
  fun c =>
    if c.tagName == "bad" then Except.error ()
    else Except.ok (StepStoneService.extractJobFromCard c)

/-- Concrete fetch-and-parse oracle for the C4 witness: page 1 yields
one record, every later page parses empty. -/
def fpWitness : Nat → Except Unit (List Job) :=
  fun p => if p = 1 then Except.ok [jobA] else Except.ok []

/-- Search-results page for the C1 witness: one well-formed card under
the primary selector. -/
def pageGood : StepStoneService.PageDoc :=
  { selArticleTestId := [cardGood], selArticleJobElement := []
    selDataAtJobItem := [], selAnchor := [] }

/-- The record the normalizer produces from `cardGood`. -/
def jobGood : Job :=
  { titel := "AI Engineer", quelle := "StepStone"
    quelle_url := "https://www.stepstone.de/stellenangebote--Good"
    firmenname := none, standort := none, textvorschau := none
    keywords := ["AI"] }

/-- The ten decimal digit characters. -/
def decimalDigits : List Char := ['0', '1', '2', '3', '4', '5', '6', '7', '8', '9']

/-- The sixteen uppercase hexadecimal digit characters. -/
def hexDigits : List Char :=
  ['0', '1', '2', '3', '4', '5', '6', '7', '8', '9', 'A', 'B', 'C', 'D', 'E', 'F']

/-- C8: `activate` on a Lead whose status is not `NEU` answers with the
error and returns the stored row unchanged — same status, same
`aktualisiert_am` timestamp — while on a Lead in `NEU` it transitions
the status to `AKTIVIERT`. -/
theorem claim_C8 (now : Nat) (lead : Lead) :
    (lead.status ≠ LeadStatus.NEU →
      activateLead now lead = (lead, some "Lead ist bereits aktiviert")) ∧
    (lead.status = LeadStatus.NEU →
      activateLead now lead =
        ({ lead with status := LeadStatus.AKTIVIERT, aktualisiert_am := now }, none)) := by
  constructor <;> intro h <;> simp [activateLead, h]

/-- Witness for C8: a `NEU` Lead is activated, a `RECHERCHIERT` Lead is
rejected untouched. -/
theorem claim_C8_witness :
    activateLead 7 sampleLead =
      ({ sampleLead with status := LeadStatus.AKTIVIERT, aktualisiert_am := 7 }, none)
    ∧ activateLead 7 { sampleLead with status := LeadStatus.RECHERCHIERT } =
      ({ sampleLead with status := LeadStatus.RECHERCHIERT },
        some "Lead ist bereits aktiviert") :=
  ⟨(claim_C8 7 sampleLead).2 rfl,
   (claim_C8 7 { sampleLead with status := LeadStatus.RECHERCHIERT }).1 (by decide)⟩

/-- C3 counterexample: the generic update handler (`update_lead`)
performs no status validation, so a mutating operation can drive a
reachable Lead (here: a freshly created one, whose status is a member
of the enumeration) to a status outside the fixed six-value
enumeration. -/
theorem claim_C3_counterexample :
    statusOptions.contains sampleLead.status = true ∧
    statusOptions.contains
      ((updateLead 3 { status := some "bogus" } sampleLead).1.status) = false := by
  exact ⟨rfl, rfl⟩

/-- C3 (amended): the status stays inside the fixed enumeration under
`create`, `set_status`, `activate`, `research` and `generate_letter`,
and `set_status` rejects any non-member (or missing) value with
`Ungültiger Status`, changing nothing; the generic update however
writes a provided status string with no validation, so it is excluded
from the invariant (see the counterexample). -/
theorem claim_C3 :
    (∀ now d, statusOptions.contains (createLead now d).status = true) ∧
    (∀ now s lead, statusOptions.contains s = false →
      updateStatus now (some s) lead = (lead, some "Ungültiger Status")) ∧
    (∀ now lead, updateStatus now none lead = (lead, some "Ungültiger Status")) ∧
    (∀ now s lead, statusOptions.contains s = true →
      (updateStatus now (some s) lead).1.status = s ∧
      (updateStatus now (some s) lead).2 = none) ∧
    (∀ now lead, statusOptions.contains lead.status = true →
      statusOptions.contains (activateLead now lead).1.status = true) ∧
    (∀ now ni ri lead, statusOptions.contains lead.status = true →
      statusOptions.contains (researchLead now ni ri lead).1.status = true) ∧
    (∀ now an af lead, statusOptions.contains lead.status = true →
      statusOptions.contains (generateLetter now an af lead).1.status = true) := by
  refine ⟨fun now d => rfl, ?_, fun now lead => rfl, ?_, ?_, ?_, ?_⟩
  · intro now s lead h
    have h' : s ∉ statusOptions := by simpa using h
    simp [updateStatus, h']
  · intro now s lead h
    have h' : s ∈ statusOptions := by simpa using h
    simp [updateStatus, h']
  · intro now lead h
    by_cases hs : lead.status = LeadStatus.NEU
    · simp [activateLead, hs]
      decide
    · simpa [activateLead, hs] using h
  · intro now ni ri lead h
    by_cases hs : lead.status = LeadStatus.AKTIVIERT
    · simp [researchLead, hs]
      decide
    · simpa [researchLead, hs] using h
  · intro now an af lead h
    by_cases hs : lead.status ∈ LETTER_ALLOWED
    · simp [generateLetter, hs]
      decide
    · simpa [generateLetter, hs] using h

/-- Witness for C3 at concrete inputs: creation lands in the
enumeration, an unknown status string is rejected unchanged, and
activation keeps membership. -/
theorem claim_C3_witness :
    statusOptions.contains (createLead 0 { titel := some "T" }).status = true ∧
    updateStatus 1 (some "unbekannt") sampleLead = (sampleLead, some "Ungültiger Status") ∧
    statusOptions.contains (activateLead 2 sampleLead).1.status = true :=
  ⟨claim_C3.1 0 { titel := some "T" },
   claim_C3.2.1 1 "unbekannt" sampleLead (by decide),
   claim_C3.2.2.2.2.1 2 sampleLead (by decide)⟩

/-- C2: on a researchable Lead (status `AKTIVIERT`) and any draw of the
simulated research result, a field that currently holds data (truthy)
is never replaced by a null: the three company enrichment fields keep
their stored values verbatim, and every field the operation writes is
either left unchanged or written with a non-null value; fields outside
the research result are untouched. -/
theorem claim_C2 (now ni ri : Nat) (lead : Lead)
    (h : lead.status = LeadStatus.AKTIVIERT) :
    (pyTruthy lead.firmen_website = true →
      (researchLead now ni ri lead).1.firmen_website = lead.firmen_website) ∧
    (pyTruthy lead.firmen_adresse = true →
      (researchLead now ni ri lead).1.firmen_adresse = lead.firmen_adresse) ∧
    (pyTruthy lead.firmen_email = true →
      (researchLead now ni ri lead).1.firmen_email = lead.firmen_email) ∧
    (((researchLead now ni ri lead).1.volltext).isSome = true) ∧
    (((researchLead now ni ri lead).1.ansprechpartner_name).isSome = true) ∧
    (((researchLead now ni ri lead).1.ansprechpartner_rolle).isSome = true) ∧
    (((researchLead now ni ri lead).1.ansprechpartner_linkedin).isSome = true) ∧
    (((researchLead now ni ri lead).1.ansprechpartner_quelle).isSome = true) ∧
    (researchLead now ni ri lead).1.titel = lead.titel ∧
    (researchLead now ni ri lead).1.quelle = lead.quelle ∧
    (researchLead now ni ri lead).1.quelle_url = lead.quelle_url ∧
    (researchLead now ni ri lead).1.keywords = lead.keywords ∧
    (researchLead now ni ri lead).1.textvorschau = lead.textvorschau ∧
    (researchLead now ni ri lead).1.anschreiben = lead.anschreiben ∧
    (researchLead now ni ri lead).2 = none := by
  have hb : (lead.status != LeadStatus.AKTIVIERT) = false := by simp [h]
  refine ⟨?_, ?_, ?_, ?_, ?_, ?_, ?_, ?_, ?_, ?_, ?_, ?_, ?_, ?_, ?_⟩ <;>
    simp [researchLead, hb]
  · intro hw
    simp [hw]
  · intro ha
    simp [ha]
  · intro he
    simp [he]

/-- Witness for C2: researching an activated Lead whose company website
is already stored leaves that website untouched. -/
theorem claim_C2_witness :
    pyTruthy ({ sampleLead with status := LeadStatus.AKTIVIERT } : Lead).firmen_website
      = true ∧
    (researchLead 9 0 0 { sampleLead with status := LeadStatus.AKTIVIERT }).1.firmen_website
      = ({ sampleLead with status := LeadStatus.AKTIVIERT } : Lead).firmen_website :=
  ⟨by rfl,
   (claim_C2 9 0 0 { sampleLead with status := LeadStatus.AKTIVIERT } rfl).1 (by rfl)⟩

/-- A list is a prefix of itself followed by anything. -/
theorem prefixAt_append_self (p q : List Char) : prefixAt p (p ++ q) = true := by
  induction p with
  | nil => rfl
  | cons c cs ih => simp [prefixAt, ih]

/-- Being a prefix is stable under appending on the right. -/
theorem prefixAt_mono {p a : List Char} (b : List Char)
    (h : prefixAt p a = true) : prefixAt p (a ++ b) = true := by
  induction p generalizing a with
  | nil => rfl
  | cons c cs ih =>
    cases a with
    | nil => simp [prefixAt] at h
    | cons d ds =>
      simp only [prefixAt, Bool.and_eq_true, beq_iff_eq] at h
      simp [prefixAt, h.1, ih h.2]

set_option maxRecDepth 4000 in
/-- C9: `generate_letter` on a Lead whose status is outside the four
allowed values (in particular `NEU`) answers with the error and leaves
the stored row unchanged; on any allowed status it succeeds and sets
the status to `ANSCHREIBEN_ERSTELLT`; and on a `RECHERCHIERT` Lead with
no stored contact name the generated letter opens with the generic
salutation `Sehr geehrte/r Damen und Herren,`. -/
theorem claim_C9 (now : Nat) (an af : Option String) (lead : Lead) :
    (lead.status ∉ LETTER_ALLOWED →
      generateLetter now an af lead =
        (lead, some "Lead muss zuerst recherchiert werden")) ∧
    (lead.status ∈ LETTER_ALLOWED →
      (generateLetter now an af lead).1.status = LeadStatus.ANSCHREIBEN_ERSTELLT ∧
      (generateLetter now an af lead).2 = none) ∧
    (lead.status = LeadStatus.RECHERCHIERT → lead.ansprechpartner_name = none →
      ∃ s, (generateLetter now an af lead).1.anschreiben = some s ∧
        strStarts s "Sehr geehrte/r Damen und Herren," = true) := by
  refine ⟨?_, ?_, ?_⟩
  · intro h
    simp [generateLetter, h]
  · intro h
    simp [generateLetter, h]
  · intro hst hname
    have hmem : lead.status ∈ LETTER_ALLOWED := by
      rw [hst]; decide
    refine ⟨letterText lead (an.getD "[Ihr Name]") (af.getD "[Ihre Firma]"),
      by simp [generateLetter, hmem], ?_⟩
    unfold strStarts letterText
    rw [hname]
    simp only [pyOr, String.data_append]
    apply prefixAt_mono
    apply prefixAt_mono
    apply prefixAt_mono
    apply prefixAt_mono
    apply prefixAt_mono
    apply prefixAt_mono
    apply prefixAt_mono
    apply prefixAt_mono
    apply prefixAt_mono
    apply prefixAt_mono
    apply prefixAt_mono
    apply prefixAt_mono
    decide

/-- Witness for C9: a `NEU` Lead is rejected; a `RESEARCHED` Lead with
no contact name gets a letter opening with the generic salutation. -/
theorem claim_C9_witness :
    generateLetter 4 none none sampleLead =
      (sampleLead, some "Lead muss zuerst recherchiert werden") ∧
    ∃ s,
      (generateLetter 4 none none
        { sampleLead with
            status := LeadStatus.RECHERCHIERT
            ansprechpartner_name := none }).1.anschreiben = some s ∧
      strStarts s "Sehr geehrte/r Damen und Herren," = true :=
  ⟨(claim_C9 4 none none sampleLead).1 (by decide),
   (claim_C9 4 none none
      { sampleLead with
          status := LeadStatus.RECHERCHIERT
          ansprechpartner_name := none }).2.2 rfl rfl⟩

/-- Two strings with the same character data are equal. -/
theorem strExt {s t : String} (h : s.data = t.data) : s = t := by
  cases s; cases t; exact congrArg String.mk h

/-- Splitting a comma-free piece yields just that piece. -/
theorem splitComma_no_comma (p : List Char) (h : ',' ∉ p) :
    splitCommaChars p = [p] := by
  induction p with
  | nil => rfl
  | cons c cs ih =>
    have hc : ¬(c = ',') := fun hc => h (hc ▸ List.mem_cons_self c cs)
    have ht : ',' ∉ cs := fun hm => h (List.mem_cons_of_mem c hm)
    simp [splitCommaChars, hc, ih ht]

/-- Splitting a comma-free piece, a comma, and a tail peels exactly the
piece. -/
theorem splitComma_append (p t : List Char) (h : ',' ∉ p) :
    splitCommaChars (p ++ ',' :: t) = p :: splitCommaChars t := by
  induction p with
  | nil => simp [splitCommaChars]
  | cons c cs ih =>
    have hc : ¬(c = ',') := fun hc => h (hc ▸ List.mem_cons_self c cs)
    have ht : ',' ∉ cs := fun hm => h (List.mem_cons_of_mem c hm)
    simp [splitCommaChars, hc, ih ht]

/-- Joining on commas then splitting on commas restores any non-empty
list of comma-free pieces. -/
theorem splitComma_pyJoin (l : List String) (hne : l ≠ [])
    (h : ∀ k ∈ l, ',' ∉ k.data) : pySplitComma (pyJoin "," l) = l := by
  induction l with
  | nil => exact absurd rfl hne
  | cons s rest ih =>
    cases rest with
    | nil =>
      simp [pyJoin, pySplitComma,
        splitComma_no_comma s.data (h s (List.mem_cons_self s []))]
    | cons t rs =>
      have hdata : (s ++ "," ++ pyJoin "," (t :: rs)).data
          = s.data ++ ',' :: (pyJoin "," (t :: rs)).data := by
        simp [String.data_append]
      have hs : ',' ∉ s.data := h s (List.mem_cons_self s (t :: rs))
      have hrest : ∀ k ∈ t :: rs, ',' ∉ k.data :=
        fun k hk => h k (List.mem_cons_of_mem s hk)
      calc pySplitComma (pyJoin "," (s :: t :: rs))
          = (splitCommaChars (s.data ++ ',' :: (pyJoin "," (t :: rs)).data)).map
              (fun p => (⟨p⟩ : String)) := by
            simp [pySplitComma, pyJoin, hdata]
        _ = s :: pySplitComma (pyJoin "," (t :: rs)) := by
            simp [splitComma_append _ _ hs, pySplitComma]
        _ = s :: t :: rs := by rw [ih (by simp) hrest]

/-- A comma-join of a list whose first piece is non-empty (or that has
at least two pieces) is non-empty. -/
theorem pyJoin_comma_ne_empty (k : String) (rest : List String) (hk : k ≠ "") :
    (pyJoin "," (k :: rest)).isEmpty = false := by
  cases rest with
  | nil =>
    simp only [pyJoin]
    rcases Bool.eq_false_or_eq_true k.isEmpty with ht | hf
    · exact absurd ((String.isEmpty_iff k).mp ht) hk
    · exact hf
  | cons t rs =>
    have hdata : (k ++ "," ++ pyJoin "," (t :: rs)).data
        = k.data ++ ',' :: (pyJoin "," (t :: rs)).data := by
      simp [String.data_append]
    have hne : (k ++ "," ++ pyJoin "," (t :: rs)) ≠ "" := by
      intro he
      have hd := congrArg String.data he
      rw [hdata] at hd
      simp at hd
    simp only [pyJoin]
    rcases Bool.eq_false_or_eq_true (k ++ "," ++ pyJoin "," (t :: rs)).isEmpty with ht | hf
    · exact absurd ((String.isEmpty_iff _).mp ht) hne
    · exact hf

/-- C10: keyword storage round-trips — creating a Lead from a list of
non-empty, comma-free keyword strings and serializing it back exposes
exactly the original list in order, and a Lead created without
keywords is exposed as the empty list (not a list holding an empty
string). -/
theorem claim_C10 (now : Nat) (d : CreateData) :
    (∀ l, d.keywords = .asList l → (∀ k ∈ l, k ≠ "" ∧ ',' ∉ k.data) →
      (leadToDict (createLead now d)).keywords = l) ∧
    (d.keywords = .absent → (leadToDict (createLead now d)).keywords = []) := by
  constructor
  · intro l hkw h
    cases l with
    | nil =>
      have hemp : ("" : String).isEmpty = true := rfl
      simp [leadToDict, createLead, hkw, pyJoin, hemp]
    | cons k rest =>
      have hne := pyJoin_comma_ne_empty k rest (h k (List.mem_cons_self k rest)).1
      simp only [leadToDict, createLead, hkw, hne]
      exact splitComma_pyJoin (k :: rest) (by simp) (fun x hx => (h x hx).2)
  · intro hkw
    simp [leadToDict, createLead, hkw]

/-- Witness for C10: the list `["GenAI", "LLM"]` round-trips, and an
absent keywords key is exposed as `[]`. -/
theorem claim_C10_witness :
    (leadToDict (createLead 0
      { titel := some "T", keywords := .asList ["GenAI", "LLM"] })).keywords
      = ["GenAI", "LLM"] ∧
    (leadToDict (createLead 0 { titel := some "T" })).keywords = [] :=
  ⟨(claim_C10 0 { titel := some "T", keywords := .asList ["GenAI", "LLM"] }).1
      ["GenAI", "LLM"] rfl (by decide),
   (claim_C10 0 { titel := some "T" }).2 rfl⟩

open StepStoneService in
/-- Deduplication output is a sublist of its input (first-seen order is
preserved). -/
theorem dedupAux_sublist (seen : List String) (js : List Job) :
    List.Sublist (dedupAux seen js) js := by
  induction js generalizing seen with
  | nil => simp [dedupAux]
  | cons j rest ih =>
    by_cases hm : j.quelle_url ∈ seen
    · simpa [dedupAux, hm] using List.Sublist.cons j (ih seen)
    · simpa [dedupAux, hm] using List.Sublist.cons₂ j (ih (j.quelle_url :: seen))

open StepStoneService in
/-- Invariant of the dedup loop: no produced record has a URL in
`seen`, and the produced URLs are pairwise distinct. -/
theorem dedupAux_spec (seen : List String) (js : List Job) :
    (∀ j' ∈ dedupAux seen js, j'.quelle_url ∉ seen) ∧
    ((dedupAux seen js).map (fun j => j.quelle_url)).Nodup := by
  induction js generalizing seen with
  | nil => simp [dedupAux]
  | cons j rest ih =>
    by_cases hm : j.quelle_url ∈ seen
    · simpa [dedupAux, hm] using ih seen
    · have ih' := ih (j.quelle_url :: seen)
      refine ⟨?_, ?_⟩
      · intro j' hj'
        simp only [dedupAux, if_neg hm, List.mem_cons] at hj'
        rcases hj' with rfl | hj'
        · exact hm
        · exact fun hs => ih'.1 j' hj' (List.mem_cons_of_mem _ hs)
      · simp only [dedupAux, if_neg hm, List.map_cons, List.nodup_cons]
        refine ⟨?_, ih'.2⟩
        intro hmem
        rcases List.mem_map.mp hmem with ⟨j', hj', hurl⟩
        exact ih'.1 j' hj' (hurl ▸ List.mem_cons_self _ _)

open StepStoneService in
/-- The record the dedup loop keeps for a URL is the first record of
the input carrying that URL. -/
theorem dedupAux_first (seen : List String) (js : List Job) :
    ∀ j' ∈ dedupAux seen js,
      js.find? (fun j => j.quelle_url == j'.quelle_url) = some j' := by
  induction js generalizing seen with
  | nil => simp [dedupAux]
  | cons j rest ih =>
    intro j' hj'
    by_cases hm : j.quelle_url ∈ seen
    · simp only [dedupAux, if_pos hm] at hj'
      have hnotin := (dedupAux_spec seen rest).1 j' hj'
      have hne : (j.quelle_url == j'.quelle_url) = false := by
        rcases Bool.eq_false_or_eq_true (j.quelle_url == j'.quelle_url) with ht | hf
        · exact absurd (beq_iff_eq.mp ht ▸ hm) hnotin
        · exact hf
      rw [List.find?_cons_of_neg _ (by simp [hne]), ih seen j' hj']
    · simp only [dedupAux, if_neg hm, List.mem_cons] at hj'
      rcases hj' with rfl | hj'
      · rw [List.find?_cons_of_pos _ (by simp)]
      · have hnotin := (dedupAux_spec (j.quelle_url :: seen) rest).1 j' hj'
        have hne : (j.quelle_url == j'.quelle_url) = false := by
          rcases Bool.eq_false_or_eq_true (j.quelle_url == j'.quelle_url) with ht | hf
          · exact absurd (List.mem_cons_self _ _)
              (beq_iff_eq.mp ht ▸ hnotin)
          · exact hf
        rw [List.find?_cons_of_neg _ (by simp [hne]),
          ih (j.quelle_url :: seen) j' hj']

open StepStoneService in
/-- Every input URL not yet seen is represented in the dedup output. -/
theorem dedupAux_covers (seen : List String) (js : List Job) :
    ∀ j ∈ js, j.quelle_url ∉ seen →
      ∃ j' ∈ dedupAux seen js, j'.quelle_url = j.quelle_url := by
  induction js generalizing seen with
  | nil => simp
  | cons k rest ih =>
    intro j hj hnot
    rcases List.mem_cons.mp hj with rfl | hj
    · by_cases hm : j.quelle_url ∈ seen
      · exact absurd hm hnot
      · exact ⟨j, by simp [dedupAux, hm], rfl⟩
    · by_cases hm : k.quelle_url ∈ seen
      · rcases ih seen j hj hnot with ⟨j', hj', hurl⟩
        exact ⟨j', by simp [dedupAux, hm, hj'], hurl⟩
      · by_cases hurl : j.quelle_url = k.quelle_url
        · exact ⟨k, by simp [dedupAux, hm], hurl.symm⟩
        · have hnot' : j.quelle_url ∉ k.quelle_url :: seen := by
            simp [hurl, hnot]
          rcases ih (k.quelle_url :: seen) j hj hnot' with ⟨j', hj', hu⟩
          exact ⟨j', by simp [dedupAux, hm, hj'], hu⟩

/-- C5: deduplication keeps each source URL exactly once (the produced
URLs are pairwise distinct, and every input URL is represented), keeps
the records in first-seen order (the output is a sublist of the
input), and for each URL keeps precisely the first input record that
carries it. -/
theorem claim_C5 (js : List Job) :
    ((StepStoneService.dedupJobs js).map (fun j => j.quelle_url)).Nodup ∧
    List.Sublist (StepStoneService.dedupJobs js) js ∧
    (∀ j ∈ js, ∃ j' ∈ StepStoneService.dedupJobs js,
      j'.quelle_url = j.quelle_url) ∧
    (∀ j' ∈ StepStoneService.dedupJobs js,
      js.find? (fun j => j.quelle_url == j'.quelle_url) = some j') :=
  ⟨(dedupAux_spec [] js).2, dedupAux_sublist [] js,
   fun j hj => dedupAux_covers [] js j hj (by simp),
   dedupAux_first [] js⟩

/-- Witness for C5: on `[jobA, jobB, jobC]` the produced URLs are
distinct and the record kept for the duplicated URL is the first one. -/
theorem claim_C5_witness :
    ((StepStoneService.dedupJobs [jobA, jobB, jobC]).map
      (fun j => j.quelle_url)).Nodup ∧
    [jobA, jobB, jobC].find? (fun j => j.quelle_url == jobA.quelle_url)
      = some jobA :=
  ⟨(claim_C5 [jobA, jobB, jobC]).1,
   (claim_C5 [jobA, jobB, jobC]).2.2.2 jobA (by decide)⟩

open StepStoneService in
/-- Specification of the page loop started anywhere inside the page
range: some final page `k` exists such that exactly pages `p..k` are
fetched, exactly one 1-second delay separates each consecutive pair of
fetches, every non-final fetched page parsed to a non-empty record
list, and the loop ended because the page range was exhausted, the
fetch raised, or the page parsed to zero records. -/
theorem scrapeAux_spec (fp : Nat → Except Unit (List Job)) (tf : Option String)
    (maxPages p : Nat) (hpm : p ≤ maxPages) :
    ∃ k, p ≤ k ∧ k ≤ maxPages ∧
      (scrapeAux fp tf maxPages (List.range' p (maxPages + 1 - p))).fetched
        = List.range' p (k + 1 - p) ∧
      (scrapeAux fp tf maxPages (List.range' p (maxPages + 1 - p))).delays
        = List.replicate (k - p) 1 ∧
      (∀ i, p ≤ i → i < k → ∃ js, fp i = .ok js ∧ js.isEmpty = false) ∧
      (k = maxPages ∨ fp k = .error () ∨ fp k = .ok []) := by
  have hsize : maxPages + 1 - p = (maxPages - p) + 1 := by omega
  have hrange : List.range' p (maxPages + 1 - p)
      = p :: List.range' (p + 1) (maxPages - p) := by
    rw [hsize, List.range'_succ]
  rw [hrange]
  cases hfp : fp p with
  | error e =>
    cases e
    refine ⟨p, Nat.le_refl p, hpm, ?_, ?_, ?_, Or.inr (Or.inl hfp)⟩
    · simp [scrapeAux, hfp]
    · simp [scrapeAux, hfp]
    · intro i h1 h2; omega
  | ok jobs =>
    by_cases hje : jobs.isEmpty
    · have hnil : jobs = [] := List.isEmpty_iff.mp hje
      refine ⟨p, Nat.le_refl p, hpm, ?_, ?_, ?_, Or.inr (Or.inr (hnil ▸ hfp))⟩
      · simp [scrapeAux, hfp, hje]
      · simp [scrapeAux, hfp, hje]
      · intro i h1 h2; omega
    · by_cases hlt : p < maxPages
      · have hrec := scrapeAux_spec fp tf maxPages (p + 1) (by omega)
        rcases hrec with ⟨k, hk1, hk2, hf, hd, hmid, hcause⟩
        have hsize' : maxPages + 1 - (p + 1) = maxPages - p := by omega
        rw [hsize'] at hf hd
        refine ⟨k, by omega, hk2, ?_, ?_, ?_, hcause⟩
        · have : k + 1 - p = (k + 1 - (p + 1)) + 1 := by omega
          rw [this, List.range'_succ]
          simp [scrapeAux, hfp, hje, hlt, hf]
        · have : k - p = (k - (p + 1)) + 1 := by omega
          rw [this, List.replicate_succ]
          simp [scrapeAux, hfp, hje, hlt, hd]
        · intro i hi1 hi2
          rcases Nat.eq_or_lt_of_le hi1 with rfl | hgt
          · exact ⟨jobs, hfp, Bool.eq_false_iff.mpr hje⟩
          · exact hmid i hgt hi2
      · have hpe : p = maxPages := by omega
        refine ⟨p, Nat.le_refl p, hpm, ?_, ?_, ?_, Or.inl hpe⟩
        · simp [scrapeAux, hfp, hje, hlt]
        · simp [scrapeAux, hfp, hje, hlt]
        · intro i h1 h2; omega
termination_by maxPages - p
decreasing_by omega

open StepStoneService in
/-- C4: for any `maxPages ≥ 1`, any fetch-and-parse behaviour and any
title filter, the page loop fetches exactly the consecutive pages
`1..k` for some `k ≤ maxPages` (hence at most `maxPages` fetches),
sleeps exactly one fixed 1-second delay between consecutive fetches
(`k - 1` sleeps), every page before the last fetched one parsed to a
non-empty record list — so the loop stops immediately at the first
page whose parse yields zero records, a check made before the title
filter is applied — and the loop only ends by exhausting the range,
a fetch error, or an empty parse. -/
theorem claim_C4 (fp : Nat → Except Unit (List Job)) (tf : Option String)
    (maxPages : Nat) (h : 1 ≤ maxPages) :
    ∃ k, 1 ≤ k ∧ k ≤ maxPages ∧
      (scrapeAux fp tf maxPages (List.range' 1 maxPages)).fetched
        = List.range' 1 k ∧
      (scrapeAux fp tf maxPages (List.range' 1 maxPages)).delays
        = List.replicate (k - 1) 1 ∧
      (∀ i, 1 ≤ i → i < k → ∃ js, fp i = .ok js ∧ js.isEmpty = false) ∧
      (k = maxPages ∨ fp k = .error () ∨ fp k = .ok []) := by
  have hsize : maxPages + 1 - 1 = maxPages := by omega
  have hspec := scrapeAux_spec fp tf maxPages 1 h
  rw [hsize] at hspec
  rcases hspec with ⟨k, hk1, hk2, hf, hd, hmid, hcause⟩
  have : k + 1 - 1 = k := by omega
  rw [this] at hf
  exact ⟨k, hk1, hk2, hf, hd, hmid, hcause⟩

open StepStoneService in
/-- Witness for C4: three pages available, page 2 parses empty — the
loop fetches pages 1 and 2, sleeps once, and stops. -/
theorem claim_C4_witness :
    ∃ k, 1 ≤ k ∧ k ≤ 3 ∧
      (scrapeAux fpWitness none 3 (List.range' 1 3)).fetched = List.range' 1 k ∧
      (scrapeAux fpWitness none 3 (List.range' 1 3)).delays
        = List.replicate (k - 1) 1 ∧
      (∀ i, 1 ≤ i → i < k →
        ∃ js, fpWitness i = .ok js ∧ js.isEmpty = false) ∧
      (k = 3 ∨ fpWitness k = .error () ∨ fpWitness k = .ok []) :=
  claim_C4 fpWitness none 3 (by decide)

open StepStoneService in
/-- C6: the normalizer — a total function, so no missing company,
location, snippet or date field can make it raise — discards a
structural match exactly when the resolved title is falsy or no source
URL can be resolved; and in the page loop a card on which the
normalizer raises is simply skipped: the parse of the remaining cards
is exactly the parse of the list without that card. -/
theorem claim_C6 :
    (∀ c : Card, extractJobFromCard c = none ↔
      (pyTruthy (cardTitle c) = false ∨ cardHref c = none)) ∧
    (∀ (norm : Card → Except Unit (Option Job)) (cs1 cs2 : List Card) (c : Card),
      norm c = .error () →
      collectCards norm (cs1 ++ c :: cs2) = collectCards norm (cs1 ++ cs2)) := by
  constructor
  · intro c
    by_cases ht : pyTruthy (cardTitle c) = false
    · simp [extractJobFromCard, ht]
    · cases hh : cardHref c with
      | none => simp [extractJobFromCard, ht, hh]
      | some h => simp [extractJobFromCard, ht, hh]
  · intro norm cs1 cs2 c hc
    induction cs1 with
    | nil => simp [collectCards, hc]
    | cons d ds ih =>
      cases hnd : norm d with
      | error e => simp [collectCards, hnd, ih]
      | ok v =>
        cases v with
        | none => simp [collectCards, hnd, ih]
        | some j => simp [collectCards, hnd, ih]

open StepStoneService in
/-- Witness for C6: the title-less card is discarded, and a raising
card in the middle of a page leaves the parse of the other cards
intact. -/
theorem claim_C6_witness :
    extractJobFromCard cardNoTitle = none ∧
    collectCards normWitness ([cardGood] ++ cardBad :: [cardGood])
      = collectCards normWitness ([cardGood] ++ [cardGood]) :=
  ⟨(claim_C6.1 cardNoTitle).mpr (Or.inl (by rfl)),
   claim_C6.2 normWitness [cardGood] [cardGood] cardBad (by rfl)⟩

open StepStoneService in
/-- The demo generator never returns an empty list: when every entry is
filtered out, the fallback loop rebuilds all ten demo entries. -/
theorem getDemoJobs_ne_nil (kw loc tf : Option String) (rand : Nat → Bool) :
    getDemoJobs kw loc tf rand ≠ [] := by
  unfold getDemoJobs
  by_cases h : (demoLoop kw loc tf rand DEMO_JOBS.enum 0).isEmpty
  · rw [if_pos h]
    have hlen : (demoFallback loc).length = 10 := by
      unfold demoFallback
      rw [List.length_map]
      rfl
    intro habs
    rw [habs] at hlen
    simp at hlen
  · rw [if_neg h]
    intro habs
    exact h (by simp [habs])

open StepStoneService in
/-- C1 counterexample: with a fetch that raises on the very first page
(so that zero records were gathered), `search_jobs` does not return the
empty list — it returns the synthetic demo data. -/
theorem claim_C1_counterexample :
    searchJobs (fun _ => Except.error ()) (fun _ => true)
        none none (some 30) 3 none none
      = getDemoJobs none none none (fun _ => true) ∧
    (searchJobs (fun _ => Except.error ()) (fun _ => true)
        none none (some 30) 3 none none).isEmpty = false :=
  ⟨rfl, rfl⟩

open StepStoneService in
/-- C1 (amended): `search_jobs` returns the scraped, deduplicated
records only when the scrape succeeds with at least one record; when
the scrape raises (e.g. a fetch failure at any page — partial records
are discarded, not returned) or yields zero records, it falls back to
the synthetic demo data; consequently it never returns the empty
list. -/
theorem claim_C1 (fetch : String → Except Unit PageDoc) (rand : Nat → Bool)
    (kw loc : Option String) (radius : Option Nat) (maxPages : Nat)
    (df : Option Nat) (tf : Option String) :
    (∀ js, scrapeJobs fetch kw loc radius maxPages df tf = .ok js → js ≠ [] →
      searchJobs fetch rand kw loc radius maxPages df tf = js) ∧
    (scrapeJobs fetch kw loc radius maxPages df tf = .error () →
      searchJobs fetch rand kw loc radius maxPages df tf
        = getDemoJobs kw loc tf rand) ∧
    (scrapeJobs fetch kw loc radius maxPages df tf = .ok [] →
      searchJobs fetch rand kw loc radius maxPages df tf
        = getDemoJobs kw loc tf rand) ∧
    searchJobs fetch rand kw loc radius maxPages df tf ≠ [] := by
  refine ⟨?_, ?_, ?_, ?_⟩
  · intro js hok hne
    simp [searchJobs, hok, hne]
  · intro herr
    simp [searchJobs, herr]
  · intro hok
    simp [searchJobs, hok]
  · cases hs : scrapeJobs fetch kw loc radius maxPages df tf with
    | error e =>
      cases e
      simpa [searchJobs, hs] using getDemoJobs_ne_nil kw loc tf rand
    | ok js =>
      by_cases hje : js.isEmpty
      · simpa [searchJobs, hs, hje] using getDemoJobs_ne_nil kw loc tf rand
      · simpa [searchJobs, hs, hje] using
          fun habs => hje (by simp [habs])

open StepStoneService in
/-- Witness for C1: a successful one-page scrape is returned as-is. -/
theorem claim_C1_witness :
    searchJobs (fun _ => Except.ok pageGood) (fun _ => true)
        none none (some 30) 1 none none = [jobGood] :=
  (claim_C1 (fun _ => Except.ok pageGood) (fun _ => true)
      none none (some 30) 1 none none).1 [jobGood] (by rfl) (by simp)

/-- The empty needle occurs in every haystack. -/
theorem subOf_nil (h : List Char) : subOf [] h = true := by
  cases h <;> rfl

/-- Every character of a prefix occurs in the list it prefixes. -/
theorem mem_of_prefixAt {n h : List Char} (hp : prefixAt n h = true) :
    ∀ c ∈ n, c ∈ h := by
  induction n generalizing h with
  | nil => simp
  | cons a as ih =>
    cases h with
    | nil => simp [prefixAt] at hp
    | cons b bs =>
      simp only [prefixAt, Bool.and_eq_true, beq_iff_eq] at hp
      intro c hc
      rcases List.mem_cons.mp hc with rfl | hc
      · exact hp.1 ▸ List.mem_cons_self _ _
      · exact List.mem_cons_of_mem _ (ih hp.2 c hc)

/-- Every character of an occurring substring occurs in the haystack. -/
theorem mem_of_subOf {n h : List Char} (hs : subOf n h = true) :
    ∀ c ∈ n, c ∈ h := by
  induction h with
  | nil =>
    cases n with
    | nil => simp
    | cons a as => simp [subOf] at hs
  | cons b bs ih =>
    simp only [subOf, Bool.or_eq_true] at hs
    rcases hs with hp | hs
    · exact mem_of_prefixAt hp
    · exact fun c hc => List.mem_cons_of_mem _ (ih hs c hc)

/-- A prefix of `A ++ B` is either a prefix of `A of it spills over:
it equals `A` followed by a prefix of `B`. -/
theorem prefixAt_append_cases (n A B : List Char)
    (h : prefixAt n (A ++ B) = true) :
    prefixAt n A = true ∨ ∃ n2, n = A ++ n2 ∧ prefixAt n2 B = true := by
  induction n generalizing A with
  | nil => exact Or.inl rfl
  | cons c cs ih =>
    cases A with
    | nil => exact Or.inr ⟨c :: cs, rfl, h⟩
    | cons a as =>
      simp only [List.cons_append, prefixAt, Bool.and_eq_true] at h
      rcases ih as h.2 with hp | ⟨n2, heq, hp2⟩
      · exact Or.inl (by simp [prefixAt, h.1, hp])
      · exact Or.inr ⟨n2, by simp [heq, beq_iff_eq.mp h.1], hp2⟩

/-- An occurrence of `n` in `A ++ B` lies in `A`, lies in `B`, or
straddles the boundary, in which case a non-empty suffix of `n` is a
prefix of `B`. -/
theorem subOf_append_cases (n A B : List Char)
    (h : subOf n (A ++ B) = true) :
    subOf n A = true ∨ subOf n B = true ∨
      ∃ n1 n2, n = n1 ++ n2 ∧ n1 ≠ [] ∧ n2 ≠ [] ∧ prefixAt n2 B = true := by
  induction A with
  | nil => exact Or.inr (Or.inl h)
  | cons a as ih =>
    rw [List.cons_append] at h
    rcases n with _ | ⟨c, cs⟩
    · exact Or.inl (subOf_nil _)
    · simp only [subOf, Bool.or_eq_true] at h
      rcases h with hp | hs
      · rw [show a :: (as ++ B) = (a :: as) ++ B from rfl] at hp
        rcases prefixAt_append_cases (c :: cs) (a :: as) B hp with hp' | ⟨n2, heq, hp2⟩
        · exact Or.inl (by simp [subOf, hp'])
        · cases n2 with
          | nil =>
            rw [List.append_nil] at heq
            refine Or.inl ?_
            have hr : prefixAt (c :: cs) (c :: cs) = true := by
              have := prefixAt_append_self (c :: cs) []
              simpa using this
            rw [heq] at hr ⊢
            simp [subOf, hr]
          | cons d ds =>
            exact Or.inr (Or.inr ⟨a :: as, d :: ds, heq, by simp, by simp, hp2⟩)
      · rcases ih hs with h1 | h2 | ⟨n1, n2, heq, hn1, hn2, hp⟩
        · exact Or.inl (by simp [subOf, h1])
        · exact Or.inr (Or.inl h2)
        · exact Or.inr (Or.inr ⟨n1, n2, heq, hn1, hn2, hp⟩)

/-- An occurrence in `A` is an occurrence in `A ++ B`. -/
theorem subOf_append_left (n A B : List Char) (h : subOf n A = true) :
    subOf n (A ++ B) = true := by
  induction A with
  | nil =>
    have : n = [] := by
      cases n with
      | nil => rfl
      | cons c cs => simp [subOf] at h
    rw [this]
    exact subOf_nil B
  | cons a as ih =>
    simp only [subOf, Bool.or_eq_true] at h
    rcases h with hp | hs
    · rw [List.cons_append]
      cases n with
      | nil => exact subOf_nil _
      | cons c cs =>
        have : prefixAt (c :: cs) ((a :: as) ++ B) = true := prefixAt_mono B hp
        simp only [subOf, Bool.or_eq_true]
        exact Or.inl this
    · rw [List.cons_append]
      cases n with
      | nil => exact subOf_nil _
      | cons c cs =>
        simp only [subOf, Bool.or_eq_true]
        exact Or.inr (ih hs)

/-- A list occurs at the front of itself followed by anything. -/
theorem subOf_self_append (n B : List Char) : subOf n (n ++ B) = true := by
  cases n with
  | nil => exact subOf_nil B
  | cons c cs =>
    simp only [subOf, Bool.or_eq_true]
    exact Or.inl (prefixAt_append_self (c :: cs) B)

/-- A list occurs anywhere it is spliced into a context. -/
theorem subOf_middle (X n B : List Char) : subOf n (X ++ (n ++ B)) = true := by
  induction X with
  | nil => exact subOf_self_append n B
  | cons x xs ih =>
    rw [List.cons_append]
    cases n with
    | nil => exact subOf_nil _
    | cons c cs =>
      simp only [subOf, Bool.or_eq_true]
      exact Or.inr ih

/-- No occurrence is possible across a split haystack when some needle
character misses the left part, some needle character misses the right
part, the needle has no `?`, and the right part is empty or starts with
`?`. -/
theorem not_subOf_split (n A B : List Char) (x y : Char)
    (hxn : x ∈ n) (hyn : y ∈ n) (hq : '?' ∉ n)
    (hxA : x ∉ A) (hyB : y ∉ B)
    (hB : B = [] ∨ ∃ B', B = '?' :: B') :
    subOf n (A ++ B) = false := by
  rcases Bool.eq_false_or_eq_true (subOf n (A ++ B)) with ht | hf
  · exfalso
    rcases subOf_append_cases n A B ht with h1 | h2 | ⟨n1, n2, heq, hn1, hn2, hp⟩
    · exact hxA (mem_of_subOf h1 x hxn)
    · exact hyB (mem_of_subOf h2 y hyn)
    · rcases hB with rfl | ⟨B', rfl⟩
      · cases n2 with
        | nil => exact hn2 rfl
        | cons d ds => simp [prefixAt] at hp
      · cases n2 with
        | nil => exact hn2 rfl
        | cons d ds =>
          simp only [prefixAt, Bool.and_eq_true, beq_iff_eq] at hp
          exact hq (heq ▸ List.mem_append_right n1 (hp.1 ▸ List.mem_cons_self d ds))
  · exact hf

/-- UTF-8 encoding produces bytes. -/
theorem utf8Bytes_lt (c : Char) : ∀ b ∈ utf8Bytes c, b < 256 := by
  have hval : c.toNat < 1114112 := by
    have h := c.valid
    have he : c.toNat = c.val.toNat := rfl
    rcases h with h | ⟨h1, h2⟩ <;> omega
  intro b hb
  unfold utf8Bytes at hb
  by_cases h1 : c.toNat < 128
  · simp [h1] at hb
    omega
  · by_cases h2 : c.toNat < 2048
    · simp [h1, h2] at hb
      rcases hb with rfl | rfl <;> omega
    · by_cases h3 : c.toNat < 65536
      · simp [h1, h2, h3] at hb
        rcases hb with rfl | rfl | rfl <;> omega
      · simp [h1, h2, h3] at hb
        rcases hb with rfl | rfl | rfl | rfl <;> omega

/-- Hexadecimal digits of values below 16 are hexadecimal digit
characters. -/
theorem hexDigitChar_mem (m : Nat) (hm : m < 16) : hexDigitChar m ∈ hexDigits := by
  interval_cases m <;> decide

/-- Characters of a percent-encoded byte: `%` and two hex digits. -/
theorem percentEncodeByte_chars (b : Nat) (hb : b < 256) :
    ∀ c ∈ percentEncodeByte b, c = '%' ∨ c ∈ hexDigits := by
  intro c hc
  unfold percentEncodeByte at hc
  simp only [List.mem_cons, List.not_mem_nil, or_false] at hc
  rcases hc with rfl | rfl | rfl
  · exact Or.inl rfl
  · exact Or.inr (hexDigitChar_mem _ (by omega))
  · exact Or.inr (hexDigitChar_mem _ (by omega))

/-- Character classes producible by `quote_plus` for one character. -/
theorem quotePlusChar_chars (c : Char) :
    ∀ c' ∈ quotePlusChar c,
      c' = '+' ∨ quoteSafe c' = true ∨ c' = '%' ∨ c' ∈ hexDigits := by
  intro c' hc'
  unfold quotePlusChar at hc'
  by_cases hsp : c == ' '
  · simp [hsp] at hc'
    exact Or.inl hc'
  · by_cases hsafe : quoteSafe c
    · simp [hsp, hsafe] at hc'
      exact Or.inr (Or.inl (hc' ▸ hsafe))
    · simp only [hsp, hsafe, if_false, Bool.false_eq_true] at hc'
      rcases List.mem_flatten.mp hc' with ⟨piece, hpiece, hcp⟩
      rcases List.mem_map.mp hpiece with ⟨b, hb, rfl⟩
      rcases percentEncodeByte_chars b (utf8Bytes_lt c b hb) c' hcp with h | h
      · exact Or.inr (Or.inr (Or.inl h))
      · exact Or.inr (Or.inr (Or.inr h))

/-- Character classes producible by `quote_plus` for a string. -/
theorem quotePlus_chars (s : String) :
    ∀ c' ∈ (quotePlus s).data,
      c' = '+' ∨ quoteSafe c' = true ∨ c' = '%' ∨ c' ∈ hexDigits := by
  intro c' hc'
  have : c' ∈ (s.data.map quotePlusChar).flatten := hc'
  rcases List.mem_flatten.mp this with ⟨piece, hpiece, hcp⟩
  rcases List.mem_map.mp hpiece with ⟨c, _, rfl⟩
  exact quotePlusChar_chars c c' hcp

/-- All characters of `natReprAux` output are decimal digits. -/
theorem natReprAux_digits (fuel : Nat) :
    ∀ n, ∀ c ∈ natReprAux fuel n, c ∈ decimalDigits := by
  induction fuel with
  | zero => intro n c hc; simp [natReprAux] at hc
  | succ fuel ih =>
    intro n c hc
    unfold natReprAux at hc
    by_cases h0 : n = 0
    · simp [h0] at hc
    · simp only [h0, if_false] at hc
      rcases List.mem_append.mp hc with hc | hc
      · exact ih (n / 10) c hc
      · have hm : n % 10 < 10 := Nat.mod_lt n (by omega)
        rcases List.mem_singleton.mp hc with rfl
        revert hm
        generalize n % 10 = m
        intro hm
        interval_cases m <;> decide

/-- All characters of `str(n)` are decimal digits. -/
theorem natRepr_digits (n : Nat) : ∀ c ∈ (natRepr n).data, c ∈ decimalDigits := by
  intro c hc
  unfold natRepr at hc
  by_cases h0 : n = 0
  · simp [h0] at hc
    simp [hc, decimalDigits]
  · simp only [h0, if_false] at hc
    exact natReprAux_digits n n c hc

/-- Characters of a join come from the separator or from a piece. -/
theorem pyJoin_chars (sep : String) (l : List String) :
    ∀ c ∈ (pyJoin sep l).data, c ∈ sep.data ∨ ∃ s ∈ l, c ∈ s.data := by
  induction l with
  | nil => intro c hc; simp [pyJoin] at hc
  | cons s rest ih =>
    intro c hc
    cases rest with
    | nil => exact Or.inr ⟨s, by simp, hc⟩
    | cons t rs =>
      have hdata : (pyJoin sep (s :: t :: rs)).data
          = s.data ++ sep.data ++ (pyJoin sep (t :: rs)).data := by
        simp [pyJoin, String.data_append]
      rw [hdata] at hc
      rcases List.mem_append.mp hc with hc | hc
      · rcases List.mem_append.mp hc with hc | hc
        · exact Or.inr ⟨s, by simp, hc⟩
        · exact Or.inl hc
      · rcases ih c hc with hsep | ⟨u, hu, hcu⟩
        · exact Or.inl hsep
        · exact Or.inr ⟨u, List.mem_cons_of_mem s hu, hcu⟩

/-- Characters of `urlencode` come from `&`, `=`, or the quoted keys
and values. -/
theorem urlencode_chars (ps : List (String × String)) :
    ∀ c ∈ (urlencode ps).data,
      c = '&' ∨ c = '=' ∨
        ∃ p ∈ ps, c ∈ (quotePlus p.1).data ∨ c ∈ (quotePlus p.2).data := by
  intro c hc
  unfold urlencode at hc
  rcases pyJoin_chars "&" _ c hc with hsep | ⟨piece, hpiece, hcp⟩
  · rcases List.mem_singleton.mp hsep with rfl
    exact Or.inl rfl
  · rcases List.mem_map.mp hpiece with ⟨p, hp, rfl⟩
    have hdata : (quotePlus p.1 ++ "=" ++ quotePlus p.2).data
        = (quotePlus p.1).data ++ '=' :: (quotePlus p.2).data := by
      simp [String.data_append]
    rw [hdata] at hcp
    rcases List.mem_append.mp hcp with hcp | hcp
    · exact Or.inr (Or.inr ⟨p, hp, Or.inl hcp⟩)
    · rcases List.mem_cons.mp hcp with rfl | hcp
      · exact Or.inr (Or.inl rfl)
      · exact Or.inr (Or.inr ⟨p, hp, Or.inr hcp⟩)

open StepStoneService in
/-- Origin of each query parameter: a truthy radius, a page above 1, or
a truthy date filter. -/
theorem searchParams_mem (r : Option Nat) (p : Nat) (df : Option Nat) :
    ∀ pr ∈ searchParams r p df,
      (∃ rv, r = some rv ∧ rv ≠ 0 ∧ pr = ("radius", natRepr rv)) ∨
      (p > 1 ∧ pr = ("page", natRepr p)) ∨
      (∃ dv, df = some dv ∧ dv ≠ 0 ∧ pr = ("age", natRepr dv)) := by
  intro pr hpr
  unfold searchParams at hpr
  rcases List.mem_append.mp hpr with h | h
  · rcases List.mem_append.mp h with h | h
    · cases r with
      | none => simp at h
      | some rv =>
        by_cases h0 : rv = 0
        · simp [h0] at h
        · simp only [h0, if_false] at h
          exact Or.inl ⟨rv, rfl, h0, List.mem_singleton.mp h⟩
    · by_cases hp : p > 1
      · simp only [hp, if_true] at h
        exact Or.inr (Or.inl ⟨hp, List.mem_singleton.mp h⟩)
      · simp [hp] at h
  · cases df with
    | none => simp at h
    | some dv =>
      by_cases h0 : dv = 0
      · simp [h0] at h
      · simp only [h0, if_false] at h
        exact Or.inr (Or.inr ⟨dv, rfl, h0, List.mem_singleton.mp h⟩)

open StepStoneService in
/-- Origin of each path segment. -/
theorem urlParts_mem (kw loc : Option String) :
    ∀ s ∈ urlParts kw loc,
      s = SEARCH_URL ∨ (∃ k, kw = some k ∧ s = quotePlus k) ∨
        (∃ l, loc = some l ∧ s = "in-" ++ quotePlus l) := by
  intro s hs
  unfold urlParts at hs
  rcases List.mem_append.mp hs with h | h
  · rcases List.mem_append.mp h with h | h
    · exact Or.inl (List.mem_singleton.mp h)
    · cases kw with
      | none => simp at h
      | some k =>
        by_cases hk : k.isEmpty
        · simp [hk] at h
        · simp only [hk, if_false] at h
          exact Or.inr (Or.inl ⟨k, rfl, List.mem_singleton.mp h⟩)
  · cases loc with
    | none => simp at h
    | some l =>
      by_cases hl : l.isEmpty
      · simp [hl] at h
      · simp only [hl, if_false] at h
        exact Or.inr (Or.inr ⟨l, rfl, List.mem_singleton.mp h⟩)

open StepStoneService in
/-- The path part of a built search URL never contains `=`. -/
theorem path_no_eq (kw loc : Option String) :
    '=' ∉ (pyJoin "/" (urlParts kw loc)).data := by
  intro hmem
  rcases pyJoin_chars "/" (urlParts kw loc) '=' hmem with hsep | ⟨s, hs, hcs⟩
  · simp at hsep
  · rcases urlParts_mem kw loc s hs with rfl | ⟨k, _, rfl⟩ | ⟨l, _, rfl⟩
    · revert hcs; decide
    · rcases quotePlus_chars k '=' hcs with h | h | h | h <;> revert h <;> decide
    · rw [String.data_append] at hcs
      rcases List.mem_append.mp hcs with h | h
      · revert h; decide
      · rcases quotePlus_chars l '=' h with h | h | h | h <;> revert h <;> decide

open StepStoneService in
/-- A built search URL splits into its path characters and an optional
`?`-led query part. -/
theorem buildSearchUrl_split (kw loc : Option String) (r : Option Nat)
    (p : Nat) (df : Option Nat) :
    (buildSearchUrl kw loc r p df).data
      = (pyJoin "/" (urlParts kw loc)).data
        ++ (if (searchParams r p df).isEmpty then []
            else '?' :: (urlencode (searchParams r p df)).data) := by
  unfold buildSearchUrl
  by_cases h : (searchParams r p df).isEmpty
  · simp [h]
  · simp [h, String.data_append]

/-- `quote_plus` leaves a digit string unchanged characterwise. -/
theorem quotePlus_digits (s : String) (hs : ∀ ch ∈ s.data, ch ∈ decimalDigits) :
    ∀ c ∈ (quotePlus s).data, c ∈ decimalDigits := by
  intro c hc
  have : c ∈ (s.data.map quotePlusChar).flatten := hc
  rcases List.mem_flatten.mp this with ⟨piece, hpiece, hcp⟩
  rcases List.mem_map.mp hpiece with ⟨ch, hch, rfl⟩
  have hdig := hs ch hch
  have hprops : ∀ d ∈ decimalDigits, (d == ' ') = false ∧ quoteSafe d = true := by
    decide
  have hd := hprops ch hdig
  unfold quotePlusChar at hcp
  rw [hd.1, hd.2] at hcp
  simp at hcp
  exact hcp ▸ hdig

open StepStoneService in
/-- Class of every query-string character, recording which parameter
it can come from. -/
theorem query_char_cases (r : Option Nat) (p : Nat) (df : Option Nat) (c : Char)
    (hc : c ∈ (urlencode (searchParams r p df)).data) :
    c = '&' ∨ c = '=' ∨ c ∈ decimalDigits ∨
      ((∃ rv, r = some rv ∧ rv ≠ 0) ∧ c ∈ (quotePlus "radius").data) ∨
      (p > 1 ∧ c ∈ (quotePlus "page").data) ∨
      ((∃ dv, df = some dv ∧ dv ≠ 0) ∧ c ∈ (quotePlus "age").data) := by
  rcases urlencode_chars _ c hc with h | h | ⟨pr, hpr, hq⟩
  · exact Or.inl h
  · exact Or.inr (Or.inl h)
  · rcases searchParams_mem r p df pr hpr with
      ⟨rv, hr, h0, rfl⟩ | ⟨hp, rfl⟩ | ⟨dv, hd, h0, rfl⟩
    · rcases hq with hq | hq
      · exact Or.inr (Or.inr (Or.inr (Or.inl ⟨⟨rv, hr, h0⟩, hq⟩)))
      · exact Or.inr (Or.inr (Or.inl
          (quotePlus_digits _ (natRepr_digits rv) c hq)))
    · rcases hq with hq | hq
      · exact Or.inr (Or.inr (Or.inr (Or.inr (Or.inl ⟨hp, hq⟩))))
      · exact Or.inr (Or.inr (Or.inl
          (quotePlus_digits _ (natRepr_digits p) c hq)))
    · rcases hq with hq | hq
      · exact Or.inr (Or.inr (Or.inr (Or.inr (Or.inr ⟨⟨dv, hd, h0⟩, hq⟩))))
      · exact Or.inr (Or.inr (Or.inl
          (quotePlus_digits _ (natRepr_digits dv) c hq)))

open StepStoneService in
/-- With `page = 1`, the literal `page=` occurs nowhere in the URL. -/
theorem no_page_substring (kw loc : Option String) (r df : Option Nat) :
    strContains (buildSearchUrl kw loc r 1 df) "page=" = false := by
  unfold strContains
  rw [buildSearchUrl_split]
  apply not_subOf_split _ _ _ '=' 'p'
  · decide
  · decide
  · decide
  · exact path_no_eq kw loc
  · intro hp
    by_cases he : (searchParams r 1 df).isEmpty
    · rw [if_pos he] at hp
      simp at hp
    · rw [if_neg he] at hp
      rcases List.mem_cons.mp hp with h | h
      · revert h; decide
      · rcases query_char_cases r 1 df 'p' h with
          h | h | h | ⟨_, h⟩ | ⟨hgt, _⟩ | ⟨_, h⟩
        · revert h; decide
        · revert h; decide
        · revert h; decide
        · revert h; decide
        · omega
        · revert h; decide
  · by_cases he : (searchParams r 1 df).isEmpty
    · exact Or.inl (by rw [if_pos he])
    · exact Or.inr ⟨_, by rw [if_neg he]⟩

open StepStoneService in
/-- With an absent or zero radius, the literal `radius=` occurs nowhere
in the URL. -/
theorem no_radius_substring (kw loc : Option String) (r : Option Nat) (p : Nat)
    (df : Option Nat) (hr : r = none ∨ r = some 0) :
    strContains (buildSearchUrl kw loc r p df) "radius=" = false := by
  unfold strContains
  rw [buildSearchUrl_split]
  apply not_subOf_split _ _ _ '=' 'r'
  · decide
  · decide
  · decide
  · exact path_no_eq kw loc
  · intro hp
    by_cases he : (searchParams r p df).isEmpty
    · rw [if_pos he] at hp
      simp at hp
    · rw [if_neg he] at hp
      rcases List.mem_cons.mp hp with h | h
      · revert h; decide
      · rcases query_char_cases r p df 'r' h with
          h | h | h | ⟨⟨rv, hrv, h0⟩, _⟩ | ⟨_, h⟩ | ⟨_, h⟩
        · revert h; decide
        · revert h; decide
        · revert h; decide
        · rcases hr with rfl | rfl
          · simp at hrv
          · rw [Option.some_inj] at hrv
            exact h0 hrv.symm
        · revert h; decide
        · revert h; decide
  · by_cases he : (searchParams r p df).isEmpty
    · exact Or.inl (by rw [if_pos he])
    · exact Or.inr ⟨_, by rw [if_neg he]⟩

open StepStoneService in
/-- With `page = 1` and an absent or zero date filter, the literal
`age=` occurs nowhere in the URL. -/
theorem no_age_substring (kw loc : Option String) (r df : Option Nat)
    (hdf : df = none ∨ df = some 0) :
    strContains (buildSearchUrl kw loc r 1 df) "age=" = false := by
  unfold strContains
  rw [buildSearchUrl_split]
  apply not_subOf_split _ _ _ '=' 'g'
  · decide
  · decide
  · decide
  · exact path_no_eq kw loc
  · intro hp
    by_cases he : (searchParams r 1 df).isEmpty
    · rw [if_pos he] at hp
      simp at hp
    · rw [if_neg he] at hp
      rcases List.mem_cons.mp hp with h | h
      · revert h; decide
      · rcases query_char_cases r 1 df 'g' h with
          h | h | h | ⟨_, h⟩ | ⟨hgt, _⟩ | ⟨⟨dv, hdv, h0⟩, _⟩
        · revert h; decide
        · revert h; decide
        · revert h; decide
        · revert h; decide
        · omega
        · rcases hdf with rfl | rfl
          · simp at hdv
          · rw [Option.some_inj] at hdv
            exact h0 hdv.symm
  · by_cases he : (searchParams r 1 df).isEmpty
    · exact Or.inl (by rw [if_pos he])
    · exact Or.inr ⟨_, by rw [if_neg he]⟩

open StepStoneService in
/-- With `page = 1` no `page` parameter is built. -/
theorem no_page_key (r df : Option Nat) :
    "page" ∉ (searchParams r 1 df).map Prod.fst := by
  intro h
  rcases List.mem_map.mp h with ⟨pr, hpr, hkey⟩
  rcases searchParams_mem r 1 df pr hpr with
    ⟨rv, _, _, rfl⟩ | ⟨hgt, _⟩ | ⟨dv, _, _, rfl⟩
  · simp at hkey
  · omega
  · simp at hkey

open StepStoneService in
/-- With an absent or zero radius no `radius` parameter is built. -/
theorem no_radius_key (r : Option Nat) (p : Nat) (df : Option Nat)
    (hr : r = none ∨ r = some 0) :
    "radius" ∉ (searchParams r p df).map Prod.fst := by
  intro h
  rcases List.mem_map.mp h with ⟨pr, hpr, hkey⟩
  rcases searchParams_mem r p df pr hpr with
    ⟨rv, hrv, h0, rfl⟩ | ⟨_, rfl⟩ | ⟨dv, _, _, rfl⟩
  · rcases hr with rfl | rfl
    · simp at hrv
    · rw [Option.some_inj] at hrv
      exact h0 hrv.symm
  · simp at hkey
  · simp at hkey

open StepStoneService in
/-- With an absent or zero date filter no `age` parameter is built. -/
theorem no_age_key (r : Option Nat) (p : Nat) (df : Option Nat)
    (hdf : df = none ∨ df = some 0) :
    "age" ∉ (searchParams r p df).map Prod.fst := by
  intro h
  rcases List.mem_map.mp h with ⟨pr, hpr, hkey⟩
  rcases searchParams_mem r p df pr hpr with
    ⟨rv, _, _, rfl⟩ | ⟨_, rfl⟩ | ⟨dv, hdv, h0, rfl⟩
  · simp at hkey
  · simp at hkey
  · rcases hdf with rfl | rfl
    · simp at hdv
    · rw [Option.some_inj] at hdv
      exact h0 hdv.symm

open StepStoneService in
/-- A truthy keyword appears as a `/`-separated, quoted path segment. -/
theorem has_keyword_segment (k : String) (hk : k.isEmpty = false)
    (loc : Option String) (r : Option Nat) (p : Nat) (df : Option Nat) :
    strContains (buildSearchUrl (some k) loc r p df)
      ("/" ++ quotePlus k) = true := by
  unfold strContains
  rw [buildSearchUrl_split]
  generalize (if (searchParams r p df).isEmpty then ([] : List Char)
    else '?' :: (urlencode (searchParams r p df)).data) = B
  rcases hcase : loc with _ | l
  · have heq : (pyJoin "/" (urlParts (some k) none)).data ++ B
        = SEARCH_URL.data ++ (("/" ++ quotePlus k).data ++ B) := by
      simp [urlParts, pyJoin, hk, String.data_append]
    rw [heq]
    exact subOf_middle _ _ _
  · by_cases hl : l.isEmpty
    · have heq : (pyJoin "/" (urlParts (some k) (some l))).data ++ B
          = SEARCH_URL.data ++ (("/" ++ quotePlus k).data ++ B) := by
        simp [urlParts, pyJoin, hk, hl, String.data_append]
      rw [heq]
      exact subOf_middle _ _ _
    · have heq : (pyJoin "/" (urlParts (some k) (some l))).data ++ B
          = SEARCH_URL.data
            ++ (("/" ++ quotePlus k).data
              ++ (("/" ++ ("in-" ++ quotePlus l)).data ++ B)) := by
        simp [urlParts, pyJoin, hk, hl, String.data_append]
      rw [heq]
      exact subOf_middle _ _ _

open StepStoneService in
/-- A truthy location appears as a `/`-separated path segment carrying
the literal `in-` marker before its quoted value. -/
theorem has_location_segment (l : String) (hl : l.isEmpty = false)
    (kw : Option String) (r : Option Nat) (p : Nat) (df : Option Nat) :
    strContains (buildSearchUrl kw (some l) r p df)
      ("/in-" ++ quotePlus l) = true := by
  unfold strContains
  rw [buildSearchUrl_split]
  generalize (if (searchParams r p df).isEmpty then ([] : List Char)
    else '?' :: (urlencode (searchParams r p df)).data) = B
  rcases hcase : kw with _ | k
  · have heq : (pyJoin "/" (urlParts none (some l))).data ++ B
        = SEARCH_URL.data ++ (("/in-" ++ quotePlus l).data ++ B) := by
      simp [urlParts, pyJoin, hl, String.data_append]
    rw [heq]
    exact subOf_middle _ _ _
  · by_cases hk : k.isEmpty
    · have heq : (pyJoin "/" (urlParts (some k) (some l))).data ++ B
          = SEARCH_URL.data ++ (("/in-" ++ quotePlus l).data ++ B) := by
        simp [urlParts, pyJoin, hl, hk, String.data_append]
      rw [heq]
      exact subOf_middle _ _ _
    · have heq : (pyJoin "/" (urlParts (some k) (some l))).data ++ B
          = (SEARCH_URL.data ++ '/' :: (quotePlus k).data)
            ++ (("/in-" ++ quotePlus l).data ++ B) := by
        simp [urlParts, pyJoin, hl, hk, String.data_append]
      rw [heq]
      exact subOf_middle _ _ _

open StepStoneService in
/-- C7: the search-URL builder is a pure function — equal argument
tuples give byte-identical URL strings; with `page = 1` no page
parameter is built and the text `page=` occurs nowhere in the URL;
with an absent/zero radius or date filter the respective parameter is
not built and its text (`radius=`, and `age=` once the page parameter
that embeds the letters `age` is itself absent) occurs nowhere in the
URL; and a truthy keyword or location is percent-encoded into a path
segment, the location prefixed by the literal `in-` marker. -/
theorem claim_C7 :
    (∀ kw loc r p df kw' loc' r' p' df',
      kw = kw' → loc = loc' → r = r' → p = p' → df = df' →
      buildSearchUrl kw loc r p df = buildSearchUrl kw' loc' r' p' df') ∧
    (∀ kw loc r df,
      strContains (buildSearchUrl kw loc r 1 df) "page=" = false ∧
      "page" ∉ (searchParams r 1 df).map Prod.fst) ∧
    (∀ kw loc r p df, r = none ∨ r = some 0 →
      strContains (buildSearchUrl kw loc r p df) "radius=" = false ∧
      "radius" ∉ (searchParams r p df).map Prod.fst) ∧
    (∀ kw loc r df, df = none ∨ df = some 0 →
      strContains (buildSearchUrl kw loc r 1 df) "age=" = false) ∧
    (∀ r p df, df = none ∨ df = some 0 →
      "age" ∉ (searchParams r p df).map Prod.fst) ∧
    (∀ k loc r p df, k.isEmpty = false →
      strContains (buildSearchUrl (some k) loc r p df)
        ("/" ++ quotePlus k) = true) ∧
    (∀ kw l r p df, l.isEmpty = false →
      strContains (buildSearchUrl kw (some l) r p df)
        ("/in-" ++ quotePlus l) = true) :=
  ⟨fun kw loc r p df kw' loc' r' p' df' h1 h2 h3 h4 h5 => by
      rw [h1, h2, h3, h4, h5],
   fun kw loc r df => ⟨no_page_substring kw loc r df, no_page_key r df⟩,
   fun kw loc r p df hr =>
     ⟨no_radius_substring kw loc r p df hr, no_radius_key r p df hr⟩,
   fun kw loc r df hdf => no_age_substring kw loc r df hdf,
   fun r p df hdf => no_age_key r p df hdf,
   fun k loc r p df hk => has_keyword_segment k hk loc r p df,
   fun kw l r p df hl => has_location_segment l hl kw r p df⟩

open StepStoneService in
/-- Witness for C7 at concrete arguments: determinism, absence of an
unrequested radius parameter, and presence of the marked location
segment. -/
theorem claim_C7_witness :
    buildSearchUrl (some "AI Engineer") (some "Berlin") (some 30) 1 (some 7)
      = buildSearchUrl (some "AI Engineer") (some "Berlin") (some 30) 1 (some 7) ∧
    strContains (buildSearchUrl (some "AI Engineer") (some "Berlin") none 1 none)
      "radius=" = false ∧
    strContains (buildSearchUrl (some "AI Engineer") (some "Berlin") (some 30) 1 none)
      ("/in-" ++ quotePlus "Berlin") = true :=
  ⟨claim_C7.1 (some "AI Engineer") (some "Berlin") (some 30) 1 (some 7)
      (some "AI Engineer") (some "Berlin") (some 30) 1 (some 7)
      rfl rfl rfl rfl rfl,
   (claim_C7.2.2.1 (some "AI Engineer") (some "Berlin") none 1 none
      (Or.inl rfl)).1,
   claim_C7.2.2.2.2.2.2 (some "AI Engineer") "Berlin" (some 30) 1 none
      (by decide)⟩

example : quotePlus "AI Engineer" = "AI+Engineer" := by rfl
example : quotePlus "München" = "M%C3%BCnchen" := by rfl
example :
    StepStoneService.buildSearchUrl (some "AI Engineer") (some "Berlin")
      (some 30) 1 none
    = "https://www.stepstone.de/jobs/AI+Engineer/in-Berlin?radius=30" := by rfl
example :
    StepStoneService.buildSearchUrl (some "KI") none (some 30) 2 (some 7)
    = "https://www.stepstone.de/jobs/KI?radius=30&page=2&age=7" := by rfl
example :
    StepStoneService.buildSearchUrl none none none 1 none
    = "https://www.stepstone.de/jobs" := by rfl
